import Mathlib

/-!
# Tonatiuh: the photon tracer and the photon-map exports of `trf.cpp`

A shallow embedding of `trf::TraceRay`, `trf::ExportAll`,
`trf::ExportSurfaceGlobalCoordinates`, `trf::ExportSurfaceLocalCoordinates` and
`trf::DrawPhotonMapRays` (`branches/TonatiuhScript/src/source/raytracing/trf.cpp`) and of
`PluginManager::BuildFileList` (`release-1.1.4/src/source/gui/PluginManager.cpp`), followed
by the properties proved about them.

Conventions of the embedding.

* `double` values live in an arbitrary carrier `F` with the operations and literals the code
  uses (`Scalar`); nothing is assumed about how sums and products are rounded.
* A `Photon*` is an address into a heap, the list of all photons allocated so far; `new`
  appends a cell and returns its index, the null pointer is `none`.
* The photon map is seen through its interface only: the tracer records the `StoreRay` calls
  it makes, the exports read the lists `GetAllPhotons` and `GetSurfacePhotons` return.
* An export returns its status together with the sequence of effects it had on the
  destination file and on the photon map.
-/

namespace trf

/-! ## Scalars and geometry -/

/-- The `double` values of the program: the two operations `Ray::operator()` needs and the
literals that occur in `trf.cpp`. -/
class Scalar (F : Type) where
  /-- Sum of two doubles. -/
  add : F → F → F
  /-- Product of two doubles. -/
  mul : F → F → F
  /-- The constant `HUGE_VAL` of `<cmath>`, the "infinite" ray bound. -/
  HUGE_VAL : F
  /-- The literal `0` (also written `0.0`). -/
  zero : F
  /-- The literal `1.0`. -/
  one : F
  /-- The literal `0.1`. -/
  tenth : F

/-- A point of space (`Point3D.h`). -/
structure Point3D (F : Type) where
  x : F
  y : F
  z : F
deriving DecidableEq, Repr

/-- A direction (`Vector3D.h`). -/
structure Vector3D (F : Type) where
  x : F
  y : F
  z : F
deriving DecidableEq, Repr

/-- A ray: origin, direction and the bound `maxt`, which the intersection routine narrows to
the distance of the nearest hit. -/
structure Ray (F : Type) where
  origin : Point3D F
  direction : Vector3D F
  maxt : F
deriving DecidableEq, Repr

/-- Modelled from the spec: `Ray::operator()( double t )` of Ray.h, which is not among the
sources; "a ray evaluated at parameter t yields `origin + t*direction`". -/
def Ray.apply {F : Type} [Scalar F] (ray : Ray F) (t : F) : Point3D F :=
  { x := Scalar.add ray.origin.x (Scalar.mul t ray.direction.x)
    y := Scalar.add ray.origin.y (Scalar.mul t ray.direction.y)
    z := Scalar.add ray.origin.z (Scalar.mul t ray.direction.z) }

/-! ## Photons and the heap -/

/-- One vertex of a photon's trajectory (`Photon.h`). A `Photon*` is a natural number, the index
of the photon in the heap, and `N` is the type of `InstanceNode*`. -/
structure Photon (F N : Type) where
  id : F
  pos : Point3D F
  prev : Option Nat
  next : Option Nat
  intersectedSurface : Option N
  surfaceSide : F
deriving DecidableEq, Repr

/-- Modelled from the spec: the constructor `Photon( pos, prev = 0, next = 0 )` of Photon.h,
which is not among the sources. It stores the position and the two references; `blank` holds
whatever it leaves in the fields it is not passed. -/
def Photon.new {F N : Type} (blank : Photon F N) (pos : Point3D F) (prev : Option Nat) :
    Photon F N :=
  { blank with pos := pos, prev := prev, next := none }

/-- The assignment `node->next = next` on the heap. -/
def setNext {F N : Type} : List (Photon F N) → Nat → Option Nat → List (Photon F N)
  | [], _, _ => []
  | c :: cs, 0, n => { c with next := n } :: cs
  | c :: cs, p + 1, n => c :: setNext cs p n

/-- The addresses met by following `next` from `p` until the null pointer; `none` when a
reference leaves the heap or the walk needs more than `fuel` steps. -/
def chainFrom {F N : Type} (heap : List (Photon F N)) : Nat → Option Nat → Option (List Nat)
  | _, none => some []
  | 0, some _ => none
  | fuel + 1, some p =>
    match heap[p]? with
    | none => none
    | some c => (chainFrom heap fuel c.next).map (fun rest => p :: rest)

/-! ## `trf::TraceRay` -/

/-- What one call `instanceNode->Intersect( ray, rand, sceneMap, &intersectedSurface, &isFront )`
leaves behind: the narrowed bound of `ray`, the returned `Ray*` and the two out-parameters. -/
structure Intersection (F N : Type) where
  maxt : F
  reflectedRay : Option (Ray F)
  intersectedSurface : Option N
  isFront : Bool

/-- Modelled from the spec: `InstanceNode::Intersect` for a fixed scene, which is not among the
sources: from the current ray and the state `R` of the random source to the outcome and the
new state of the random source. -/
abbrev Intersector (F N R : Type) := Ray F → R → Intersection F N × R

/-- The intersection step of this revision of `trf.cpp`: the call on line 199 is commented
out, so `reflectedRay` keeps its initial value `0`, the out-parameters keep the `0` they were
reset to, and neither the ray nor the random source is touched. -/
def Intersect_disabled {F N R : Type} : Intersector F N R :=
  fun ray rand =>
    ({ maxt := ray.maxt, reflectedRay := none, intersectedSurface := none, isFront := false }, rand)

/-- The local variables of `TraceRay` that live across the loop, with the heap and the state of
the random source. -/
structure TraceVars (F N R : Type) where
  heap : List (Photon F N)
  ray : Ray F
  rand : R
  node : Nat
  rayLength : Nat
  intersectedSurface : Option N
  isFront : Bool

/-- The loop `while ( intersection )` of `TraceRay`, lines 195-217. `Intersect` stands for the
call on line 199 (`Intersect_disabled` for the revision at hand, where it is commented out);
`fuel` bounds the number of iterations and `none` means the bound was reached. -/
def traceLoop {F N R : Type} [Scalar F] (Intersect : Intersector F N R) (blank : Photon F N) :
    Nat → TraceVars F N R → Option (TraceVars F N R)
  | 0, _ => none
  | fuel + 1, s =>
    let hit := Intersect s.ray s.rand
    let ray : Ray F := { s.ray with maxt := hit.1.maxt }
    match hit.1.reflectedRay with
    | some reflectedRay =>
      let point := ray.apply ray.maxt
      let next := s.heap.length
      let photon : Photon F N :=
        { Photon.new blank point (some s.node) with
          intersectedSurface := hit.1.intersectedSurface
          surfaceSide := if hit.1.isFront then Scalar.one else Scalar.zero }
      traceLoop Intersect blank fuel
        { heap := setNext (s.heap ++ [photon]) s.node (some next)
          ray := reflectedRay
          rand := hit.2
          node := next
          rayLength := s.rayLength + 1
          intersectedSurface := hit.1.intersectedSurface
          isFront := hit.1.isFront }
    | none =>
      some { s with
        ray := ray
        rand := hit.2
        intersectedSurface := hit.1.intersectedSurface
        isFront := hit.1.isFront }

/-- What `TraceRay` leaves behind: the heap, the ray (passed by reference), the random source
and the photon map, represented by the sequence of `StoreRay` calls made on it. -/
structure TraceResult (F N R : Type) where
  heap : List (Photon F N)
  ray : Ray F
  rand : R
  photonMap : List Nat

/-- The function `trf::TraceRay`, lines 177-232. `rayLength` is an `int` in the source; it is
a natural number here, which agrees with the source on every run of fewer than `2^31`
iterations. -/
def TraceRay {F N R : Type} [Scalar F] [DecidableEq F] (Intersect : Intersector F N R)
    (blank : Photon F N) (fuel : Nat) (heap : List (Photon F N)) (ray : Ray F)
    (lightNode : Option N) (photonMap : List Nat) (rand : R) :
    Option (TraceResult F N R) :=
  let first := heap.length
  let head : Photon F N := { Photon.new blank ray.origin none with intersectedSurface := lightNode }
  match traceLoop Intersect blank fuel
      { heap := heap ++ [head], ray := ray, rand := rand, node := first, rayLength := 0,
        intersectedSurface := none, isFront := false } with
  | none => none
  | some s =>
    if ¬ (s.rayLength = 0 ∧ s.ray.maxt = Scalar.HUGE_VAL) then
      let ray : Ray F :=
        if s.ray.maxt = Scalar.HUGE_VAL then { s.ray with maxt := Scalar.tenth } else s.ray
      let endOfRay := ray.apply ray.maxt
      let lastNode := s.heap.length
      let photon : Photon F N :=
        { Photon.new blank endOfRay (some s.node) with
          intersectedSurface := s.intersectedSurface
          surfaceSide := if s.isFront then Scalar.one else Scalar.zero }
      some { heap := setNext (s.heap ++ [photon]) s.node (some lastNode)
             ray := ray
             rand := s.rand
             photonMap := photonMap ++ [first] }
    else
      some { heap := s.heap, ray := s.ray, rand := s.rand, photonMap := photonMap ++ [first] }

/-! ## A carrier for concrete runs -/

/-- A carrier for the scalars in concrete runs: the rationals with one infinite value. -/
inductive ExtRat where
  | fin (q : ℚ)
  | inf
deriving DecidableEq, Repr

/-- Sum in `ExtRat`. -/
def ExtRat.add : ExtRat → ExtRat → ExtRat
  | .fin a, .fin b => .fin (a + b)
  | _, _ => .inf

/-- Product in `ExtRat`. -/
def ExtRat.mul : ExtRat → ExtRat → ExtRat
  | .fin a, .fin b => .fin (a * b)
  | _, _ => .inf

instance : Scalar ExtRat where
  add := ExtRat.add
  mul := ExtRat.mul
  HUGE_VAL := .inf
  zero := .fin 0
  one := .fin 1
  tenth := .fin (1 / 10)

/-- A ray from the origin along the z axis, with the infinite bound. -/
def exampleRay : Ray ExtRat :=
  { origin := ⟨.fin 0, .fin 0, .fin 0⟩, direction := ⟨.fin 0, .fin 0, .fin 1⟩, maxt := .inf }

/-- The fields a fresh photon is left with in concrete runs. -/
def exampleBlank : Photon ExtRat Nat :=
  { id := .fin 0, pos := ⟨.fin 0, .fin 0, .fin 0⟩, prev := none, next := none,
    intersectedSurface := none, surfaceSide := .fin 0 }

/-- A scene of two mirrors for concrete runs; the state of the random source counts the calls.
The first call reports a hit on the front of node 10 at distance 3, the second a hit on the
back of node 11 at distance 2, and every later call reports nothing. -/
def twoMirrors : Intersector ExtRat Nat Nat :=
  fun ray calls =>
    match calls with
    | 0 =>
      ({ maxt := .fin 3
         reflectedRay := some { origin := ⟨.fin 0, .fin 0, .fin 3⟩,
                                direction := ⟨.fin 0, .fin 0, .fin (-1)⟩, maxt := .inf }
         intersectedSurface := some 10
         isFront := true }, 1)
    | 1 =>
      ({ maxt := .fin 2
         reflectedRay := some { origin := ⟨.fin 0, .fin 0, .fin 1⟩,
                                direction := ⟨.fin 1, .fin 0, .fin 0⟩, maxt := .inf }
         intersectedSurface := some 11
         isFront := false }, 2)
    | calls + 2 =>
      ({ maxt := ray.maxt, reflectedRay := none, intersectedSurface := none, isFront := false },
        calls + 3)

/-- How `QTextStream` prints a `double`, for concrete runs. Qt prints a value without
fractional part and of fewer than seven digits as the bare integer (`500.0` as `500`); the
other values are only given a recognisable form here. -/
def ExtRat.print : ExtRat → String
  | .fin q => if q.den = 1 then toString q.num else toString q.num ++ "/" ++ toString q.den
  | .inf => "inf"

/-! ## The exports -/

/-- Modelled from the spec: what the exports read of an `InstanceNode*` (InstanceNode.h,
TShapeKit.h and TLightKit.h are not among the sources). -/
structure InstanceNodes (F N : Type) where
  /-- The test `GetNode()->getTypeId().isDerivedFrom( TShapeKit::getClassTypeId() )`. -/
  isDerivedFromTShapeKit : N → Bool
  /-- The test `GetNode()->getTypeId().isDerivedFrom( TLightKit::getClassTypeId() )`. -/
  isDerivedFromTLightKit : N → Bool
  /-- The node's `GetNodeURL()`. -/
  GetNodeURL : N → String
  /-- The node's `GetIntersectionTransform()`, applied to a point. -/
  GetIntersectionTransform : N → Point3D F → Point3D F

/-- Modelled from the spec: what the exports read of a `TPhotonMap` (TPhotonMap.h is not among
the sources): the photon each pointer refers to and the two lists of pointers. -/
structure TPhotonMap (F N : Type) where
  /-- The photon a pointer refers to. -/
  deref : Nat → Photon F N
  /-- The list `GetAllPhotons()` returns. -/
  GetAllPhotons : List Nat
  /-- The list `GetSurfacePhotons( node )` returns. -/
  GetSurfacePhotons : N → List Nat

/-- One effect of an export on the destination file or on the photon map. -/
inductive Effect (F N : Type) where
  /-- The call `exportFile.open( QIODevice::WriteOnly )`. -/
  | openWriteOnly
  /-- A `double` sent to the stream with `out << v`. -/
  | num (v : F)
  /-- A string sent to the stream with `out << s`. -/
  | str (s : String)
  /-- The call `exportFile.close()`. -/
  | close
  /-- The call `photonMap->GetAllPhotons()`. -/
  | getAllPhotons
  /-- The call `photonMap->GetSurfacePhotons( node )`. -/
  | getSurfacePhotons (node : N)
deriving DecidableEq, Repr

/-- The expression `( node->prev ) ? node->prev->id : 0`. -/
def prev_id {F N : Type} [Scalar F] (photonMap : TPhotonMap F N) (node : Nat) : F :=
  match (photonMap.deref node).prev with
  | some p => (photonMap.deref p).id
  | none => Scalar.zero

/-- The expression `( node->next ) ? node->next->id : 0`. -/
def next_id {F N : Type} [Scalar F] (photonMap : TPhotonMap F N) (node : Nat) : F :=
  match (photonMap.deref node).next with
  | some p => (photonMap.deref p).id
  | none => Scalar.zero

/-- The function `trf::ExportAll`, lines 68-92; `canOpen` is the answer of `exportFile.open`. -/
def ExportAll {F N : Type} [Scalar F] (nodes : InstanceNodes F N) (canOpen : Bool) (wPhoton : F)
    (photonMap : TPhotonMap F N) : Int × List (Effect F N) :=
  if !canOpen then (0, [.openWriteOnly])
  else
    let out : List (Effect F N) := [.openWriteOnly, .num wPhoton, .getAllPhotons]
    let photonsList := photonMap.GetAllPhotons
    let out := photonsList.foldl
      (fun out node =>
        let photon := (photonMap.deref node).pos
        let id := (photonMap.deref node).id
        let nodeUrl :=
          match (photonMap.deref node).intersectedSurface with
          | some surface => nodes.GetNodeURL surface
          | none => "-"
        out ++ [.num id, .str "\t", .num photon.x, .str "\t", .num photon.y, .str "\t",
          .num photon.z, .str "\t", .num (prev_id photonMap node), .str "\t",
          .num (next_id photonMap node), .str "\t", .str nodeUrl, .str "\n"])
      out
    (1, out ++ [.close])

/-- The function `trf::ExportSurfaceGlobalCoordinates`, lines 99-131. -/
def ExportSurfaceGlobalCoordinates {F N : Type} [Scalar F] (nodes : InstanceNodes F N)
    (canOpen : Bool) (selectedSurface : N) (wPhoton : F) (photonMap : TPhotonMap F N) :
    Int × List (Effect F N) :=
  if !nodes.isDerivedFromTShapeKit selectedSurface && !nodes.isDerivedFromTLightKit selectedSurface
  then (0, [])
  else if !canOpen then (0, [.openWriteOnly])
  else
    let out : List (Effect F N) := [.openWriteOnly, .num wPhoton, .getSurfacePhotons selectedSurface]
    let nodePhotonsList := photonMap.GetSurfacePhotons selectedSurface
    if nodePhotonsList.length = 0 then (1, out ++ [.close])
    else
      let out := nodePhotonsList.foldl
        (fun out node =>
          let photon := (photonMap.deref node).pos
          let id := (photonMap.deref node).id
          out ++ [.num id, .num photon.x, .num photon.y, .num photon.z,
            .num (prev_id photonMap node), .num (next_id photonMap node)])
        out
      (1, out ++ [.close])

/-- The function `trf::ExportSurfaceLocalCoordinates`, lines 138-169. -/
def ExportSurfaceLocalCoordinates {F N : Type} [Scalar F] (nodes : InstanceNodes F N)
    (canOpen : Bool) (selectedSurface : N) (wPhoton : F) (photonMap : TPhotonMap F N) :
    Int × List (Effect F N) :=
  if !nodes.isDerivedFromTShapeKit selectedSurface && !nodes.isDerivedFromTLightKit selectedSurface
  then (0, [])
  else if !canOpen then (0, [.openWriteOnly])
  else
    let out : List (Effect F N) := [.openWriteOnly, .num wPhoton, .getSurfacePhotons selectedSurface]
    let nodePhotonsList := photonMap.GetSurfacePhotons selectedSurface
    if nodePhotonsList.length = 0 then (1, out ++ [.close])
    else
      let worldToObject := nodes.GetIntersectionTransform selectedSurface
      let out := nodePhotonsList.foldl
        (fun out node =>
          let photon := worldToObject (photonMap.deref node).pos
          let id := (photonMap.deref node).id
          out ++ [.num id, .num photon.x, .num photon.y, .num photon.z,
            .num (prev_id photonMap node), .num (next_id photonMap node)])
        out
      (1, out ++ [.close])

/-- The values an export sent to its stream, in order. -/
def written {F N : Type} : List (Effect F N) → List F
  | [] => []
  | .num v :: rest => v :: written rest
  | _ :: rest => written rest

/-- The characters a `QTextStream` export put in the file, `print` being the way the stream
prints a `double`. -/
def text {F N : Type} (print : F → String) : List (Effect F N) → String
  | [] => ""
  | .num v :: rest => print v ++ text print rest
  | .str s :: rest => s ++ text print rest
  | _ :: rest => text print rest

/-- Scene nodes for concrete runs: node 3 is a shape kit, node 7 a light kit (the sun), every
other node a plain group; the intersection transform permutes the coordinates. -/
def exampleNodes : InstanceNodes ExtRat Nat :=
  { isDerivedFromTShapeKit := fun node => node == 3
    isDerivedFromTLightKit := fun node => node == 7
    GetNodeURL := fun node => if node = 7 then "//SunNode" else "//SunNode/Shape"
    GetIntersectionTransform := fun _ p => ⟨p.z, p.x, p.y⟩ }

/-- A photon map for concrete runs, holding one chain of two vertices: photon 1 at the origin,
emitted by the light node 7, and photon 2 at `(0, 0, 1)`, which struck nothing. -/
def exampleMap : TPhotonMap ExtRat Nat :=
  { deref := fun p =>
      if p = 0 then
        { id := .fin 1, pos := ⟨.fin 0, .fin 0, .fin 0⟩, prev := none, next := some 1,
          intersectedSurface := some 7, surfaceSide := .fin 0 }
      else
        { id := .fin 2, pos := ⟨.fin 0, .fin 0, .fin 1⟩, prev := some 0, next := none,
          intersectedSurface := none, surfaceSide := .fin 0 }
    GetAllPhotons := [0, 1]
    GetSurfacePhotons := fun node => if node = 7 then [0] else [] }

/-! ## Notions used to state the properties -/

/-- Started on `ray` with the random source in state `rand`, the intersection step returns an
outgoing ray on each of the first `k` iterations and none on the next one. -/
def stopsAfter {F N R : Type} (Intersect : Intersector F N R) : Nat → Ray F → R → Bool
  | 0, ray, rand => (Intersect ray rand).1.reflectedRay.isNone
  | k + 1, ray, rand =>
    match (Intersect ray rand).1.reflectedRay with
    | none => false
    | some reflectedRay => stopsAfter Intersect k reflectedRay (Intersect ray rand).2

/-- The ray and the state of the random source at the start of iteration `i` (counted from 0):
the segment that iteration consumes. -/
def segment {F N R : Type} (Intersect : Intersector F N R) : Nat → Ray F → R → Option (Ray F × R)
  | 0, ray, rand => some (ray, rand)
  | i + 1, ray, rand =>
    match (Intersect ray rand).1.reflectedRay with
    | none => none
    | some reflectedRay => segment Intersect i reflectedRay (Intersect ray rand).2

/-- The segment iteration `k` consumes when the first `k` iterations each return an outgoing
ray (the total form of `segment`). -/
def lastSegment {F N R : Type} (Intersect : Intersector F N R) : Nat → Ray F → R → Ray F × R
  | 0, ray, rand => (ray, rand)
  | k + 1, ray, rand =>
    match (Intersect ray rand).1.reflectedRay with
    | none => (ray, rand)
    | some reflectedRay => lastSegment Intersect k reflectedRay (Intersect ray rand).2

/-- The head vertex of a chain: at the origin of the ray, tagged with the light node,
with neither predecessor nor successor. -/
def headPhoton {F N : Type} (blank : Photon F N) (ray : Ray F) (lightNode : Option N) :
    Photon F N :=
  { blank with pos := ray.origin, prev := none, next := none, intersectedSurface := lightNode }

/-- The hit vertex of a segment: at `ray( ray.maxt )` with the bound the
intersection step left, carrying the struck node and the face flag it reported. The two
references are filled in by `relink`. -/
def hitPhoton {F N R : Type} [Scalar F] (Intersect : Intersector F N R) (blank : Photon F N)
    (ray : Ray F) (rand : R) : Photon F N :=
  { blank with
    pos := ({ ray with maxt := (Intersect ray rand).1.maxt } : Ray F).apply (Intersect ray rand).1.maxt
    prev := none
    next := none
    intersectedSurface := (Intersect ray rand).1.intersectedSurface
    surfaceSide := if (Intersect ray rand).1.isFront then Scalar.one else Scalar.zero }

/-- The hit vertices of the first `k` iterations, in order. -/
def hitPhotons {F N R : Type} [Scalar F] (Intersect : Intersector F N R) (blank : Photon F N) :
    Nat → Ray F → R → List (Photon F N)
  | 0, _, _ => []
  | k + 1, ray, rand =>
    match (Intersect ray rand).1.reflectedRay with
    | none => []
    | some reflectedRay =>
      hitPhoton Intersect blank ray rand ::
        hitPhotons Intersect blank k reflectedRay (Intersect ray rand).2

/-- The end vertex of the last segment: on the ray at its bound, or at
the distance `0.1` when the bound is `HUGE_VAL`. -/
def endPhoton {F N R : Type} [Scalar F] [DecidableEq F] (Intersect : Intersector F N R)
    (blank : Photon F N) (ray : Ray F) (rand : R) : Photon F N :=
  { blank with
    pos := ray.apply
      (if (Intersect ray rand).1.maxt = Scalar.HUGE_VAL then Scalar.tenth
       else (Intersect ray rand).1.maxt)
    prev := none
    next := none
    intersectedSurface := (Intersect ray rand).1.intersectedSurface
    surfaceSide := if (Intersect ray rand).1.isFront then Scalar.one else Scalar.zero }

/-- A doubly-linked chain laid out at consecutive addresses from `addr`: each cell refers to the
one before it (`prev` for the first) and to the one after it (null for the last). -/
def relink {F N : Type} : Option Nat → Nat → List (Photon F N) → List (Photon F N)
  | _, _, [] => []
  | prev, _, [c] => [{ c with prev := prev, next := none }]
  | prev, addr, c :: d :: rest =>
    { c with prev := prev, next := some (addr + 1) } :: relink (some addr) (addr + 1) (d :: rest)

/-- A sequence of records `id, x, y, z, prevId, nextId` with each position replaced by its
image under `transform`. -/
def transformRecords {F : Type} (transform : Point3D F → Point3D F) : List F → List F
  | id :: x :: y :: z :: prevId :: nextId :: rest =>
    id :: (transform ⟨x, y, z⟩).x :: (transform ⟨x, y, z⟩).y :: (transform ⟨x, y, z⟩).z ::
      prevId :: nextId :: transformRecords transform rest
  | rest => rest

/-- The photon map with every position replaced by its image under `transform`. -/
def TPhotonMap.mapPos {F N : Type} (photonMap : TPhotonMap F N)
    (transform : Point3D F → Point3D F) : TPhotonMap F N :=
  { photonMap with
    deref := fun p => { photonMap.deref p with pos := transform (photonMap.deref p).pos } }


/-! ## `trf::DrawPhotonMapRays` -/

/-- How a call of `DrawPhotonMapRays` ends. -/
inductive DrawResult (F : Type) where
  /-- The scene was built: the positions put in `points->point` and the `drawRays` entries of
  `lines` handed to `lineset->numVertices`; an entry the loop never assigned is `none`. -/
  | drawn (points : List (Point3D F)) (lines : List (Option Nat))
  /-- The expression `photonsList[index]` was evaluated with `index` outside the list. -/
  | indexOutOfRange (index : Nat)
  /-- The expression `new int[drawRays]` was evaluated with a negative `drawRays`. -/
  | negativeArrayLength
  /-- The walk along a chain took more steps than the bound given to the model. -/
  | unfinished
deriving DecidableEq, Repr

/-- The call `point.set1Value( index, x, y, z )` of Coin's multiple-value field: the value at
`index` is replaced, and the field grows by one value when `index` is its current length. -/
def set1Value {F : Type} (points : List (Point3D F)) (index : Nat) (value : Point3D F) :
    List (Point3D F) :=
  if index < points.length then points.set index value else points ++ [value]

/-- The loop `while ( node != 0 )` of `DrawPhotonMapRays`, lines 288-298, on the variables
`node`, `points`, `numberOfPhoton` and `rayLength`. `GetPhoton` is the lookup `map.GetPhoton`
(modelled from the spec: "exact lookup by identifier", a null pointer when there is none;
TPhotonMap.h is not among the sources); `none` means that `fuel` iterations were not enough. -/
def drawChain {F N : Type} (map : TPhotonMap F N) (GetPhoton : F → Option Nat) :
    Nat → Option Nat → List (Point3D F) → Nat → Nat → Option (List (Point3D F) × Nat × Nat)
  | _, none, points, numberOfPhoton, rayLength => some (points, numberOfPhoton, rayLength)
  | 0, some _, _, _, _ => none
  | fuel + 1, some node, points, numberOfPhoton, rayLength =>
    let photon := (map.deref node).pos
    let points := set1Value points numberOfPhoton photon
    let node :=
      match (map.deref node).next with
      | some next => GetPhoton (map.deref next).id
      | none => none
    drawChain map GetPhoton fuel node points (numberOfPhoton + 1) (rayLength + 1)

/-- The loop on line 281,
`while( ( indexPhotonList < photonsList.size() ) && ( photonsList[indexPhotonList]->prev != 0 ) )
indexPhotonList++`; it makes at most `photonsList.size() - indexPhotonList` steps, which is
the value `steps` is called with. -/
def skipToHead {F N : Type} (map : TPhotonMap F N) (photonsList : List Nat) : Nat → Nat → Nat
  | 0, indexPhotonList => indexPhotonList
  | steps + 1, indexPhotonList =>
    match photonsList[indexPhotonList]? with
    | none => indexPhotonList
    | some photon =>
      if (map.deref photon).prev.isSome then skipToHead map photonsList steps (indexPhotonList + 1)
      else indexPhotonList

/-- The variables of `DrawPhotonMapRays` that live across its outer loop. -/
structure DrawVars (F : Type) where
  points : List (Point3D F)
  lines : List (Option Nat)
  numberOfPhoton : Nat
  indexPhotonList : Nat

/-- The loop `for (int drawnRay = 0; drawnRay < drawRays; ++drawnRay)` of `DrawPhotonMapRays`,
lines 279-304; the first argument is `drawRays - drawnRay`. -/
def drawLoop {F N : Type} (map : TPhotonMap F N) (GetPhoton : F → Option Nat) (fuel : Nat)
    (photonsList : List Nat) : Nat → Nat → DrawVars F → DrawResult F
  | 0, _, s => .drawn s.points s.lines
  | remaining + 1, drawnRay, s =>
    let indexPhotonList :=
      skipToHead map photonsList (photonsList.length - s.indexPhotonList) s.indexPhotonList
    match photonsList[indexPhotonList]? with
    | none => .indexOutOfRange indexPhotonList
    | some node =>
      if (map.deref node).prev.isNone then
        match drawChain map GetPhoton fuel (some node) s.points s.numberOfPhoton 0 with
        | none => .unfinished
        | some (points, numberOfPhoton, rayLength) =>
          drawLoop map GetPhoton fuel photonsList remaining (drawnRay + 1)
            { points := points
              lines := s.lines.set drawnRay (some rayLength)
              numberOfPhoton := numberOfPhoton
              indexPhotonList := indexPhotonList + 1 }
      else
        drawLoop map GetPhoton fuel photonsList remaining (drawnRay + 1)
          { s with indexPhotonList := indexPhotonList }

/-- The function `trf::DrawPhotonMapRays`, lines 262-319. `truncated` is the value of the cast
`(int) (numberOfRays * ( fraction / 100 ) )`, whose floating-point computation is not
reproduced; `fuel` bounds the walk along one chain. The counters `rayLength` and
`numberOfPhoton` are natural numbers. -/
def DrawPhotonMapRays {F N : Type} (map : TPhotonMap F N) (GetPhoton : F → Option Nat)
    (fuel : Nat) (truncated : Int) : DrawResult F :=
  let drawRays : Int := if truncated = 0 then 1 else truncated
  if drawRays < 0 then .negativeArrayLength
  else
    let lines : List (Option Nat) := List.replicate drawRays.toNat none
    let photonsList := map.GetAllPhotons
    drawLoop map GetPhoton fuel photonsList drawRays.toNat 0
      { points := [], lines := lines, numberOfPhoton := 0, indexPhotonList := 0 }

/-- The operations on `double` that line 267 uses beside the product of `Scalar`. -/
structure CastOps (F : Type) where
  /-- The conversion of the `unsigned long` `numberOfRays` to `double`. -/
  ofULong : Nat → F
  /-- The quotient of two doubles. -/
  div : F → F → F
  /-- The literal `100`. -/
  hundred : F
  /-- The cast `(int)` of a double. -/
  toInt : F → Int

/-- The expression `(int) (numberOfRays * ( fraction / 100 ) )` of line 267, as the code
computes it: the quotient first, then the product, then the cast. -/
def drawRaysCast {F : Type} [Scalar F] (ops : CastOps F) (numberOfRays : Nat) (fraction : F) :
    Int :=
  ops.toInt (Scalar.mul (ops.ofULong numberOfRays) (ops.div fraction ops.hundred))

/-- The operations of line 267 in concrete runs: exact arithmetic on the rationals, the cast
truncating towards zero. It is what double arithmetic gives when the quotient and the product
are representable, as they are for a fraction that is a multiple of 100. -/
def exampleCastOps : CastOps ExtRat :=
  { ofULong := fun n => .fin n
    div := fun a b =>
      match a, b with
      | .fin p, .fin q => .fin (p / q)
      | _, _ => .inf
    hundred := .fin 100
    toInt := fun a =>
      match a with
      | .fin q => Int.tdiv q.num q.den
      | .inf => 0 }

/-- The number of polylines as the specification words it,
`max(1, trunc(numberOfRays * fraction / 100))`, in exact arithmetic. -/
def claimedN (numberOfRays : Nat) (fraction : ℚ) : Int :=
  max 1 (Int.tdiv ((numberOfRays : ℚ) * fraction / 100).num
    ((numberOfRays : ℚ) * fraction / 100).den)

/-- The addresses met by following `next` from a photon of the map until the null pointer;
`none` when the walk needs more than `fuel` steps. -/
def followNext {F N : Type} (map : TPhotonMap F N) : Nat → Option Nat → Option (List Nat)
  | _, none => some []
  | 0, some _ => none
  | fuel + 1, some p => (followNext map fuel (map.deref p).next).map (fun rest => p :: rest)

/-- The chain heads of the map, the photons with `prev == 0`, in `GetAllPhotons()` order. -/
def chainHeads {F N : Type} (map : TPhotonMap F N) : List Nat :=
  map.GetAllPhotons.filter (fun p => (map.deref p).prev.isNone)

/-- An intersection step that returns an outgoing ray on every call: the ray it was given,
with nothing struck. -/
def Intersect_always {F N R : Type} : Intersector F N R :=
  fun ray rand =>
    ({ maxt := ray.maxt, reflectedRay := some ray, intersectedSurface := none, isFront := false },
      rand)

/-- The lookup by identifier in concrete runs with `exampleMap`: identifier 1 is photon 0 and
identifier 2 is photon 1. -/
def exampleGetPhoton : ExtRat → Option Nat
  | .fin q => if q.num = 1 then some 0 else if q.num = 2 then some 1 else none
  | .inf => none

/-- The photon map that holds no photon, for concrete runs. -/
def emptyMap : TPhotonMap ExtRat Nat :=
  { deref := fun _ => exampleBlank, GetAllPhotons := [], GetSurfacePhotons := fun _ => [] }

end trf

/-! ## `PluginManager`: the list of plugin files -/

namespace PluginManager

/-- Modelled from the spec: what `BuildFileList` reads of a `QDir` (Qt is not among the
sources): its `absolutePath()`, the names `entryList( QDir::Files )` returns, and the names
`entryList( QDir::Dirs )` returns, each with the directory `QDir( directoryPath + name )`
opens. A value of this type is a finite directory tree; the entries `.` and `..` are listed
like any other name. -/
inductive QDir where
  | mk (absolutePath : String) (files : List String) (dirs : List (String × QDir))

/-- The call `directory.absolutePath()`. -/
def QDir.absolutePath : QDir → String
  | .mk absolutePath _ _ => absolutePath

/-- The call `directory.entryList( QDir::Files, QDir::Unsorted )`. -/
def QDir.entryListFiles : QDir → List String
  | .mk _ files _ => files

/-- The function `PluginManager::ValidDirectoryName`, lines 243-250. -/
def ValidDirectoryName (directoryName : String) : Bool :=
  directoryName != "." && directoryName != ".."

/-- The function `PluginManager::AddFilesToList`, lines 140-150. -/
def AddFilesToList (directory : QDir) (filesList : List String) : List String :=
  let directoryPath := directory.absolutePath ++ "/"
  let filenamesList := directory.entryListFiles
  filenamesList.foldl (fun filesList name => filesList ++ [directoryPath ++ name]) filesList

mutual
/-- The function `PluginManager::BuildFileList`, lines 153-171. -/
def BuildFileList : QDir → List String → List String
  | .mk absolutePath files dirs, filesList =>
    BuildFileList.loop dirs (AddFilesToList (.mk absolutePath files dirs) filesList)
/-- The loop over `subdirectoriesList` in `BuildFileList`, lines 165-170. -/
def BuildFileList.loop : List (String × QDir) → List String → List String
  | [], filesList => filesList
  | (subdirectoryName, subdirectory) :: rest, filesList =>
    if ValidDirectoryName subdirectoryName then
      BuildFileList.loop rest (BuildFileList subdirectory filesList)
    else BuildFileList.loop rest filesList
end

mutual
/-- The files below a directory, as the specification lists them: the directory's own files
first, each as the directory's absolute path, a slash and the file name, then the files below
each subdirectory in turn, the entries `.` and `..` left out. -/
def filesBelow : QDir → List String
  | .mk absolutePath files dirs =>
    files.map (fun name => absolutePath ++ "/" ++ name) ++ filesBelow.dirs dirs
/-- The files below the subdirectories of a list of entries. -/
def filesBelow.dirs : List (String × QDir) → List String
  | [] => []
  | (name, subdirectory) :: rest =>
    (if name = "." ∨ name = ".." then [] else filesBelow subdirectory) ++ filesBelow.dirs rest
end

/-- A directory tree for concrete runs: two plugins in the directory itself, one in the
subdirectory `shapes`, and the entries `.` and `..`, which lead back to directories that hold
files. -/
def examplePlugins : QDir :=
  .mk "/opt/plugins" ["a.so", "b.so"]
    [(".", .mk "/opt/plugins" ["a.so", "b.so"] []),
     ("..", .mk "/opt" ["readme"] []),
     ("shapes", .mk "/opt/plugins/shapes" ["sphere.so"] [])]

end PluginManager

namespace trf

/-! ## Lemmas on linked chains -/

theorem setNext_append_cons {F N : Type} (H : List (Photon F N)) (c : Photon F N)
    (T : List (Photon F N)) (n : Option Nat) :
    setNext (H ++ c :: T) H.length n = H ++ { c with next := n } :: T := by
  induction H with
  | nil => rfl
  | cons h H ih => simp [setNext, ih]

theorem relink_length {F N : Type} (cs : List (Photon F N)) :
    ∀ (p : Option Nat) (a : Nat), (relink p a cs).length = cs.length := by
  induction cs with
  | nil => intro p a; rfl
  | cons c cs ih =>
    intro p a
    cases cs with
    | nil => rfl
    | cons d rest => simp [relink, ih]

theorem relink_getElem? {F N : Type} (cs : List (Photon F N)) :
    ∀ (p : Option Nat) (a i : Nat),
      (relink p a cs)[i]? = (cs[i]?).map (fun c =>
        { c with
          prev := if i = 0 then p else some (a + i - 1)
          next := if i + 1 < cs.length then some (a + i + 1) else none }) := by
  induction cs with
  | nil => intro p a i; simp [relink]
  | cons c cs ih =>
    intro p a i
    cases cs with
    | nil =>
      cases i with
      | zero => simp [relink]
      | succ i => simp [relink]
    | cons d rest =>
      cases i with
      | zero => simp [relink]
      | succ i =>
        simp only [relink, List.getElem?_cons_succ, ih (some a) (a + 1) i, List.length_cons]
        cases h : (d :: rest)[i]? with
        | none => rfl
        | some e =>
          simp only [Option.map_some', Option.some.injEq]
          have h1 : a + 1 + i - 1 = a + i := by omega
          have h2 : a + (i + 1) - 1 = a + i := by omega
          have h3 : a + 1 + i + 1 = a + (i + 1) + 1 := by omega
          cases i with
          | zero => simp
          | succ j => simp [h1, h2, h3]

theorem setNext_relink_snoc {F N : Type} (d : Photon F N) (cs : List (Photon F N)) :
    ∀ (H : List (Photon F N)) (p : Option Nat), cs ≠ [] →
      setNext (H ++ relink p H.length cs ++
          [{ d with prev := some (H.length + cs.length - 1), next := none }])
        (H.length + cs.length - 1) (some (H.length + cs.length))
      = H ++ relink p H.length (cs ++ [d]) := by
  induction cs with
  | nil => intro H p h; exact absurd rfl h
  | cons c cs ih =>
    intro H p _
    cases cs with
    | nil =>
      simp only [relink, List.length_cons, List.length_nil, List.nil_append, List.cons_append,
        List.append_assoc]
      have h := setNext_append_cons H ({ c with prev := p, next := none })
        [{ d with prev := some (H.length + (0 + 1) - 1), next := none }] (some (H.length + (0 + 1)))
      simpa using h
    | cons e rest =>
      have key := ih (H ++ [{ c with prev := p, next := some (H.length + 1) }]) (some H.length)
        (by simp)
      simp only [List.length_append, List.length_cons, List.length_nil, List.append_assoc,
        List.cons_append, List.nil_append] at key
      simp only [relink, List.length_cons, List.cons_append, List.append_assoc]
      have e1 : H.length + (rest.length + 1 + 1) - 1 = H.length + (0 + 1) + (rest.length + 1) - 1 := by
        omega
      have e2 : H.length + (rest.length + 1 + 1) = H.length + (0 + 1) + (rest.length + 1) := by
        omega
      rw [e1, e2]
      simpa using key

theorem chainFrom_relink {F N : Type} (H cs : List (Photon F N)) (p : Option Nat) :
    ∀ (m i fuel : Nat), i + m = cs.length → 0 < m → m ≤ fuel →
      chainFrom (H ++ relink p H.length cs) fuel (some (H.length + i))
        = some (List.range' (H.length + i) m) := by
  intro m
  induction m with
  | zero => intro i fuel _ h; exact absurd h (by decide)
  | succ m ih =>
    intro i fuel hi _ hf
    obtain ⟨fuel, rfl⟩ : ∃ f, fuel = f + 1 := ⟨fuel - 1, by omega⟩
    have hlt : i < cs.length := by omega
    have hget : (H ++ relink p H.length cs)[H.length + i]? = (cs[i]?).map (fun c =>
        { c with
          prev := if i = 0 then p else some (H.length + i - 1)
          next := if i + 1 < cs.length then some (H.length + i + 1) else none }) := by
      rw [List.getElem?_append_right (by omega)]
      simp [relink_getElem?]
    have hci : cs[i]? = some cs[i] := by simp [hlt]
    rw [chainFrom, hget, hci]
    simp only [Option.map_some']
    by_cases hm : m = 0
    · subst hm
      have : ¬ (i + 1 < cs.length) := by omega
      simp [this, chainFrom, List.range']
    · have h1 : i + 1 < cs.length := by omega
      simp only [h1, if_true]
      have := ih (i + 1) fuel (by omega) (by omega) (by omega)
      rw [show H.length + i + 1 = H.length + (i + 1) by omega, this]
      simp only [List.range', Option.map_some']
      rw [show H.length + i + 1 = H.length + (i + 1) by omega]

/-! ## Lemmas on the trace -/

theorem segment_eq_lastSegment {F N R : Type} (Intersect : Intersector F N R) :
    ∀ (k : Nat) (ray : Ray F) (rand : R), stopsAfter Intersect k ray rand = true →
      segment Intersect k ray rand = some (lastSegment Intersect k ray rand) ∧
      (Intersect (lastSegment Intersect k ray rand).1
        (lastSegment Intersect k ray rand).2).1.reflectedRay = none := by
  intro k
  induction k with
  | zero =>
    intro ray rand h
    simp only [stopsAfter, Option.isNone_iff_eq_none] at h
    exact ⟨rfl, h⟩
  | succ k ih =>
    intro ray rand h
    simp only [stopsAfter] at h
    simp only [segment, lastSegment]
    cases hr : (Intersect ray rand).1.reflectedRay with
    | none => simp [hr] at h
    | some r =>
      simp only [hr] at h
      exact ih r _ h

theorem hitPhotons_getElem? {F N R : Type} [Scalar F] (Intersect : Intersector F N R)
    (blank : Photon F N) :
    ∀ (k : Nat) (ray : Ray F) (rand : R), stopsAfter Intersect k ray rand = true →
      (hitPhotons Intersect blank k ray rand).length = k ∧
      ∀ i, i < k → ∃ ri randi, segment Intersect i ray rand = some (ri, randi) ∧
        (hitPhotons Intersect blank k ray rand)[i]? = some (hitPhoton Intersect blank ri randi) := by
  intro k
  induction k with
  | zero => intro ray rand _; exact ⟨rfl, fun i hi => absurd hi (by omega)⟩
  | succ k ih =>
    intro ray rand h
    simp only [stopsAfter] at h
    cases hr : (Intersect ray rand).1.reflectedRay with
    | none => simp [hr] at h
    | some r =>
      simp only [hr] at h
      obtain ⟨hl, hi⟩ := ih r _ h
      refine ⟨by simp [hitPhotons, hr, hl], ?_⟩
      intro i hik
      cases i with
      | zero => exact ⟨ray, rand, rfl, by simp [hitPhotons, hr]⟩
      | succ i =>
        obtain ⟨ri, randi, h1, h2⟩ := hi i (by omega)
        exact ⟨ri, randi, by simp [segment, hr, h1], by simp [hitPhotons, hr, h2]⟩

theorem traceLoop_eq {F N R : Type} [Scalar F] (Intersect : Intersector F N R)
    (blank : Photon F N) (H : List (Photon F N)) :
    ∀ (k : Nat) (s : TraceVars F N R) (cs : List (Photon F N)), cs ≠ [] →
      s.heap = H ++ relink none H.length cs → s.node + 1 = H.length + cs.length →
      stopsAfter Intersect k s.ray s.rand = true → ∀ fuel, k < fuel →
      traceLoop Intersect blank fuel s = some
        { heap := H ++ relink none H.length (cs ++ hitPhotons Intersect blank k s.ray s.rand)
          ray := { (lastSegment Intersect k s.ray s.rand).1 with
            maxt := (Intersect (lastSegment Intersect k s.ray s.rand).1
              (lastSegment Intersect k s.ray s.rand).2).1.maxt }
          rand := (Intersect (lastSegment Intersect k s.ray s.rand).1
              (lastSegment Intersect k s.ray s.rand).2).2
          node := H.length + cs.length + k - 1
          rayLength := s.rayLength + k
          intersectedSurface := (Intersect (lastSegment Intersect k s.ray s.rand).1
              (lastSegment Intersect k s.ray s.rand).2).1.intersectedSurface
          isFront := (Intersect (lastSegment Intersect k s.ray s.rand).1
              (lastSegment Intersect k s.ray s.rand).2).1.isFront } := by
  intro k
  induction k with
  | zero =>
    intro s cs _ hheap hnode hstop fuel hfuel
    obtain ⟨fuel, rfl⟩ : ∃ f, fuel = f + 1 := ⟨fuel - 1, by omega⟩
    simp only [stopsAfter, Option.isNone_iff_eq_none] at hstop
    have hn : s.node = H.length + cs.length + 0 - 1 := by omega
    simp only [traceLoop, hstop, lastSegment, hitPhotons, List.append_nil, Nat.add_zero,
      ← hheap]
    rw [show H.length + cs.length - 1 = s.node by omega]
  | succ k ih =>
    intro s cs hcs hheap hnode hstop fuel hfuel
    obtain ⟨fuel, rfl⟩ : ∃ f, fuel = f + 1 := ⟨fuel - 1, by omega⟩
    simp only [stopsAfter] at hstop
    cases hr : (Intersect s.ray s.rand).1.reflectedRay with
    | none => simp [hr] at hstop
    | some r =>
      simp only [hr] at hstop
      have hlen : s.heap.length = H.length + cs.length := by
        rw [hheap, List.length_append, relink_length]
      have hnode2 : s.node = H.length + cs.length - 1 := by omega
      have hstep : setNext (s.heap ++
            [({ Photon.new blank
                  (({ s.ray with maxt := (Intersect s.ray s.rand).1.maxt } : Ray F).apply
                    (Intersect s.ray s.rand).1.maxt) (some s.node) with
                intersectedSurface := (Intersect s.ray s.rand).1.intersectedSurface
                surfaceSide := if (Intersect s.ray s.rand).1.isFront then Scalar.one
                  else Scalar.zero } : Photon F N)])
            s.node (some s.heap.length)
          = H ++ relink none H.length (cs ++ [hitPhoton Intersect blank s.ray s.rand]) := by
        rw [hheap, List.length_append, relink_length, hnode2]
        exact setNext_relink_snoc (hitPhoton Intersect blank s.ray s.rand) cs H none hcs
      have := ih
        { heap := setNext (s.heap ++
            [({ Photon.new blank
                  (({ s.ray with maxt := (Intersect s.ray s.rand).1.maxt } : Ray F).apply
                    (Intersect s.ray s.rand).1.maxt) (some s.node) with
                intersectedSurface := (Intersect s.ray s.rand).1.intersectedSurface
                surfaceSide := if (Intersect s.ray s.rand).1.isFront then Scalar.one
                  else Scalar.zero } : Photon F N)])
            s.node (some s.heap.length)
          ray := r
          rand := (Intersect s.ray s.rand).2
          node := s.heap.length
          rayLength := s.rayLength + 1
          intersectedSurface := (Intersect s.ray s.rand).1.intersectedSurface
          isFront := (Intersect s.ray s.rand).1.isFront }
        (cs ++ [hitPhoton Intersect blank s.ray s.rand]) (by simp) hstep
        (by simp only [hlen, List.length_append, List.length_cons, List.length_nil]; omega)
        hstop fuel (by omega)
      simp only [traceLoop, hr, this, lastSegment, hitPhotons, List.append_assoc,
        List.singleton_append, List.length_append, List.length_cons, List.length_nil]
      congr 2
      all_goals omega

theorem TraceRay_miss {F N R : Type} [Scalar F] [DecidableEq F] (Intersect : Intersector F N R)
    (blank : Photon F N) (fuel : Nat) (heap : List (Photon F N)) (ray : Ray F)
    (lightNode : Option N) (photonMap : List Nat) (rand : R)
    (hstop : stopsAfter Intersect 0 ray rand = true)
    (hmaxt : (Intersect ray rand).1.maxt = Scalar.HUGE_VAL) (hfuel : 0 < fuel) :
    TraceRay Intersect blank fuel heap ray lightNode photonMap rand = some
      { heap := heap ++ [headPhoton blank ray lightNode]
        ray := { ray with maxt := Scalar.HUGE_VAL }
        rand := (Intersect ray rand).2
        photonMap := photonMap ++ [heap.length] } := by
  obtain ⟨fuel, rfl⟩ : ∃ f, fuel = f + 1 := ⟨fuel - 1, by omega⟩
  simp only [stopsAfter, Option.isNone_iff_eq_none] at hstop
  simp [TraceRay, traceLoop, hstop, hmaxt, headPhoton, Photon.new]

theorem TraceRay_tail {F N R : Type} [Scalar F] [DecidableEq F] (Intersect : Intersector F N R)
    (blank : Photon F N) (k fuel : Nat) (heap : List (Photon F N)) (ray : Ray F)
    (lightNode : Option N) (photonMap : List Nat) (rand : R)
    (hstop : stopsAfter Intersect k ray rand = true) (hfuel : k < fuel)
    (htail : ¬ (k = 0 ∧ (Intersect (lastSegment Intersect k ray rand).1
      (lastSegment Intersect k ray rand).2).1.maxt = Scalar.HUGE_VAL)) :
    TraceRay Intersect blank fuel heap ray lightNode photonMap rand = some
      { heap := heap ++ relink none heap.length
          (headPhoton blank ray lightNode :: hitPhotons Intersect blank k ray rand ++
            [endPhoton Intersect blank (lastSegment Intersect k ray rand).1
              (lastSegment Intersect k ray rand).2])
        ray := { (lastSegment Intersect k ray rand).1 with
          maxt :=
            if (Intersect (lastSegment Intersect k ray rand).1
                (lastSegment Intersect k ray rand).2).1.maxt = Scalar.HUGE_VAL
            then Scalar.tenth
            else (Intersect (lastSegment Intersect k ray rand).1
                (lastSegment Intersect k ray rand).2).1.maxt }
        rand := (Intersect (lastSegment Intersect k ray rand).1
          (lastSegment Intersect k ray rand).2).2
        photonMap := photonMap ++ [heap.length] } := by
  have hloop := traceLoop_eq Intersect blank heap k
    { heap := heap ++ [headPhoton blank ray lightNode], ray := ray, rand := rand,
      node := heap.length, rayLength := 0, intersectedSurface := none, isFront := false }
    [headPhoton blank ray lightNode] (by simp) rfl rfl hstop fuel hfuel
  have hlen := (hitPhotons_getElem? Intersect blank k ray rand hstop).1
  have hsnoc := setNext_relink_snoc
    (endPhoton Intersect blank (lastSegment Intersect k ray rand).1
      (lastSegment Intersect k ray rand).2)
    (headPhoton blank ray lightNode :: hitPhotons Intersect blank k ray rand) heap none (by simp)
  simp only [List.length_cons, hlen] at hsnoc
  have hhead : ({ Photon.new blank ray.origin none with intersectedSurface := lightNode } :
      Photon F N) = headPhoton blank ray lightNode := rfl
  simp only [TraceRay, hhead, hloop, List.singleton_append, List.length_singleton,
    Nat.zero_add, htail, not_false_eq_true, if_true, List.length_append, relink_length,
    List.length_cons, List.length_nil, hlen]
  rw [show heap.length + 1 + k - 1 = heap.length + (k + 1) - 1 by omega]
  by_cases hm : (Intersect (lastSegment Intersect k ray rand).1
      (lastSegment Intersect k ray rand).2).1.maxt = Scalar.HUGE_VAL
  · simp only [hm, if_true, Option.some.injEq, TraceResult.mk.injEq, and_true, true_and]
    rw [← hsnoc]
    simp [endPhoton, hm, Photon.new, Ray.apply]
  · simp only [hm, if_false, Option.some.injEq, TraceResult.mk.injEq, and_true, true_and]
    rw [← hsnoc]
    simp [endPhoton, hm, Photon.new, Ray.apply]

theorem traceLoop_some_stops {F N R : Type} [Scalar F] (Intersect : Intersector F N R)
    (blank : Photon F N) :
    ∀ (fuel : Nat) (s s' : TraceVars F N R), traceLoop Intersect blank fuel s = some s' →
      ∃ k, k < fuel ∧ stopsAfter Intersect k s.ray s.rand = true := by
  intro fuel
  induction fuel with
  | zero => intro s s' h; simp [traceLoop] at h
  | succ fuel ih =>
    intro s s' h
    cases hr : (Intersect s.ray s.rand).1.reflectedRay with
    | none => exact ⟨0, by omega, by simp [stopsAfter, hr]⟩
    | some r =>
      simp only [traceLoop, hr] at h
      obtain ⟨k, hk, hs⟩ := ih _ _ h
      exact ⟨k + 1, by omega, by simpa [stopsAfter, hr] using hs⟩

theorem TraceRay_some_stops {F N R : Type} [Scalar F] [DecidableEq F]
    (Intersect : Intersector F N R) (blank : Photon F N) (fuel : Nat) (heap : List (Photon F N))
    (ray : Ray F) (lightNode : Option N) (photonMap : List Nat) (rand : R)
    (res : TraceResult F N R)
    (h : TraceRay Intersect blank fuel heap ray lightNode photonMap rand = some res) :
    ∃ k, k < fuel ∧ stopsAfter Intersect k ray rand = true := by
  simp only [TraceRay] at h
  split at h
  · exact absurd h (by simp)
  · next s hs => exact traceLoop_some_stops Intersect blank fuel _ s hs

theorem TraceRay_cells {F N R : Type} [Scalar F] [DecidableEq F] (Intersect : Intersector F N R)
    (blank : Photon F N) (k fuel : Nat) (heap : List (Photon F N)) (ray : Ray F)
    (lightNode : Option N) (photonMap : List Nat) (rand : R)
    (hstop : stopsAfter Intersect k ray rand = true) (hfuel : k < fuel) :
    ∃ res, TraceRay Intersect blank fuel heap ray lightNode photonMap rand = some res ∧
      res.photonMap = photonMap ++ [heap.length] ∧
      res.heap = heap ++ relink none heap.length
        (headPhoton blank ray lightNode :: hitPhotons Intersect blank k ray rand ++
          if k = 0 ∧ (Intersect (lastSegment Intersect k ray rand).1
              (lastSegment Intersect k ray rand).2).1.maxt = Scalar.HUGE_VAL
          then []
          else [endPhoton Intersect blank (lastSegment Intersect k ray rand).1
              (lastSegment Intersect k ray rand).2]) := by
  by_cases htail : k = 0 ∧ (Intersect (lastSegment Intersect k ray rand).1
      (lastSegment Intersect k ray rand).2).1.maxt = Scalar.HUGE_VAL
  · obtain ⟨hk, hm⟩ := htail
    subst hk
    refine ⟨_, TraceRay_miss Intersect blank fuel heap ray lightNode photonMap rand hstop hm hfuel,
      rfl, ?_⟩
    simp only [lastSegment] at hm
    simp [hm, hitPhotons, relink, headPhoton, lastSegment]
  · refine ⟨_, TraceRay_tail Intersect blank k fuel heap ray lightNode photonMap rand hstop hfuel
      htail, rfl, ?_⟩
    simp only [htail, if_false]

/-- The cells of a chain laid out by `relink` after the heap `H`: walking it, and the contents
and links of each cell. -/
theorem relink_wellFormed {F N : Type} (H cs : List (Photon F N)) (hcs : cs ≠ []) :
    (H ++ relink none H.length cs).length = H.length + cs.length ∧
    chainFrom (H ++ relink none H.length cs) (H ++ relink none H.length cs).length
      (some H.length) = some (List.range' H.length cs.length) ∧
    (∀ i, i < cs.length → ∃ c d, (H ++ relink none H.length cs)[H.length + i]? = some c ∧
      cs[i]? = some d ∧ c.pos = d.pos ∧ c.intersectedSurface = d.intersectedSurface ∧
      c.surfaceSide = d.surfaceSide ∧
      c.prev = (if i = 0 then none else some (H.length + i - 1)) ∧
      c.next = (if i + 1 < cs.length then some (H.length + i + 1) else none)) := by
  have hpos : 0 < cs.length := List.length_pos.mpr hcs
  refine ⟨by simp [relink_length], ?_, ?_⟩
  · have := chainFrom_relink H cs none cs.length 0 (H ++ relink none H.length cs).length
      (by omega) hpos (by simp [relink_length])
    simpa using this
  · intro i hi
    have hci : cs[i]? = some cs[i] := by simp [hi]
    refine ⟨{ cs[i] with
        prev := if i = 0 then none else some (H.length + i - 1)
        next := if i + 1 < cs.length then some (H.length + i + 1) else none },
      cs[i], ?_, hci, rfl, rfl, rfl, rfl, rfl⟩
    rw [List.getElem?_append_right (by omega)]
    simp [relink_getElem?, hci]

/-! ## Lemmas on the exports -/

theorem foldl_append_eq_flatMap {α β : Type} (f : α → List β) (l : List α) :
    ∀ out : List β, l.foldl (fun out a => out ++ f a) out = out ++ l.flatMap f := by
  induction l with
  | nil => intro out; simp
  | cons a l ih => intro out; simp [ih]

theorem written_append {F N : Type} (a b : List (Effect F N)) :
    written (a ++ b) = written a ++ written b := by
  induction a with
  | nil => rfl
  | cons e a ih => cases e <;> simp [written, ih]

theorem written_flatMap {F N : Type} (l : List Nat) (f : Nat → List (Effect F N)) :
    written (l.flatMap f) = l.flatMap (fun v => written (f v)) := by
  induction l with
  | nil => rfl
  | cons a l ih => simp [written_append, ih]

theorem transformRecords_flatMap {F : Type} (transform : Point3D F → Point3D F) (l : List Nat)
    (id pr nx : Nat → F) (pos : Nat → Point3D F) :
    transformRecords transform
      (l.flatMap (fun v => [id v, (pos v).x, (pos v).y, (pos v).z, pr v, nx v]))
    = l.flatMap (fun v => [id v, (transform (pos v)).x, (transform (pos v)).y,
        (transform (pos v)).z, pr v, nx v]) := by
  induction l with
  | nil => simp [transformRecords]
  | cons a l ih =>
    have e : ∀ rest, transformRecords transform
        (id a :: (pos a).x :: (pos a).y :: (pos a).z :: pr a :: nx a :: rest)
        = id a :: (transform (pos a)).x :: (transform (pos a)).y :: (transform (pos a)).z ::
            pr a :: nx a :: transformRecords transform rest := by
      intro rest
      simp [transformRecords]
    rw [List.flatMap_cons, List.flatMap_cons]
    refine (e _).trans ?_
    simp only [List.append_eq, List.nil_append, ih]
    rfl

theorem ExportSurfaceGlobalCoordinates_eq {F N : Type} [Scalar F] (nodes : InstanceNodes F N)
    (canOpen : Bool) (selectedSurface : N) (wPhoton : F) (photonMap : TPhotonMap F N) :
    ExportSurfaceGlobalCoordinates nodes canOpen selectedSurface wPhoton photonMap =
      if nodes.isDerivedFromTShapeKit selectedSurface = false ∧
          nodes.isDerivedFromTLightKit selectedSurface = false then (0, [])
      else if canOpen = false then (0, [.openWriteOnly])
      else (1, [.openWriteOnly, .num wPhoton, .getSurfacePhotons selectedSurface] ++
        (photonMap.GetSurfacePhotons selectedSurface).flatMap (fun v =>
          [.num (photonMap.deref v).id, .num (photonMap.deref v).pos.x,
           .num (photonMap.deref v).pos.y, .num (photonMap.deref v).pos.z,
           .num (prev_id photonMap v), .num (next_id photonMap v)]) ++ [.close]) := by
  unfold ExportSurfaceGlobalCoordinates
  cases hs : nodes.isDerivedFromTShapeKit selectedSurface <;>
  cases hl : nodes.isDerivedFromTLightKit selectedSurface <;>
  cases canOpen <;>
  cases hp : photonMap.GetSurfacePhotons selectedSurface <;>
  simp [foldl_append_eq_flatMap]

theorem ExportSurfaceLocalCoordinates_eq {F N : Type} [Scalar F] (nodes : InstanceNodes F N)
    (canOpen : Bool) (selectedSurface : N) (wPhoton : F) (photonMap : TPhotonMap F N) :
    ExportSurfaceLocalCoordinates nodes canOpen selectedSurface wPhoton photonMap =
      if nodes.isDerivedFromTShapeKit selectedSurface = false ∧
          nodes.isDerivedFromTLightKit selectedSurface = false then (0, [])
      else if canOpen = false then (0, [.openWriteOnly])
      else (1, [.openWriteOnly, .num wPhoton, .getSurfacePhotons selectedSurface] ++
        (photonMap.GetSurfacePhotons selectedSurface).flatMap (fun v =>
          [.num (photonMap.deref v).id,
           .num (nodes.GetIntersectionTransform selectedSurface (photonMap.deref v).pos).x,
           .num (nodes.GetIntersectionTransform selectedSurface (photonMap.deref v).pos).y,
           .num (nodes.GetIntersectionTransform selectedSurface (photonMap.deref v).pos).z,
           .num (prev_id photonMap v), .num (next_id photonMap v)]) ++ [.close]) := by
  unfold ExportSurfaceLocalCoordinates
  cases hs : nodes.isDerivedFromTShapeKit selectedSurface <;>
  cases hl : nodes.isDerivedFromTLightKit selectedSurface <;>
  cases canOpen <;>
  cases hp : photonMap.GetSurfacePhotons selectedSurface <;>
  simp [foldl_append_eq_flatMap]

theorem ExportAll_eq {F N : Type} [Scalar F] (nodes : InstanceNodes F N) (canOpen : Bool)
    (wPhoton : F) (photonMap : TPhotonMap F N) :
    ExportAll nodes canOpen wPhoton photonMap =
      if canOpen = false then (0, [.openWriteOnly])
      else (1, [.openWriteOnly, .num wPhoton, .getAllPhotons] ++
        photonMap.GetAllPhotons.flatMap (fun v =>
          [.num (photonMap.deref v).id, .str "\t", .num (photonMap.deref v).pos.x, .str "\t",
           .num (photonMap.deref v).pos.y, .str "\t", .num (photonMap.deref v).pos.z, .str "\t",
           .num (prev_id photonMap v), .str "\t", .num (next_id photonMap v), .str "\t",
           .str (match (photonMap.deref v).intersectedSurface with
             | some surface => nodes.GetNodeURL surface
             | none => "-"),
           .str "\n"]) ++ [.close]) := by
  unfold ExportAll
  cases canOpen <;> simp [foldl_append_eq_flatMap]

/-! ## Lemmas on the drawing of rays -/

theorem set_length_append {α : Type} (a b : List α) (x y : α) :
    (a ++ x :: b).set a.length y = a ++ y :: b := by
  induction a with
  | nil => rfl
  | cons h a ih => simp [ih]

theorem skipToHead_spec {F N : Type} (map : TPhotonMap F N) (photonsList : List Nat) :
    ∀ (steps index head : Nat) (rest : List Nat), steps = photonsList.length - index →
      (photonsList.drop index).filter (fun p => (map.deref p).prev.isNone) = head :: rest →
      photonsList[skipToHead map photonsList steps index]? = some head ∧
      (map.deref head).prev.isNone = true ∧
      (photonsList.drop (skipToHead map photonsList steps index + 1)).filter
        (fun p => (map.deref p).prev.isNone) = rest := by
  intro steps
  induction steps with
  | zero =>
    intro index head rest hsteps hfilter
    rw [List.drop_eq_nil_of_le (by omega)] at hfilter
    simp at hfilter
  | succ steps ih =>
    intro index head rest hsteps hfilter
    have hlt : index < photonsList.length := by omega
    have hdrop : photonsList.drop index = photonsList[index] :: photonsList.drop (index + 1) :=
      List.drop_eq_getElem_cons hlt
    have hget : photonsList[index]? = some photonsList[index] := by simp [hlt]
    rw [hdrop, List.filter_cons] at hfilter
    cases hprev : (map.deref photonsList[index]).prev with
    | none =>
      simp only [hprev, Option.isNone_none, if_true, List.cons.injEq] at hfilter
      obtain ⟨hhead, hrest⟩ := hfilter
      simp only [skipToHead, hget, hprev, Option.isSome_none, Bool.false_eq_true, if_false]
      refine ⟨by rw [hhead], ?_, hrest⟩
      rw [← hhead, hprev]
      rfl
    | some q =>
      simp only [hprev, Option.isNone_some, Bool.false_eq_true, if_false] at hfilter
      simp only [skipToHead, hget, hprev, Option.isSome_some, if_true]
      exact ih (index + 1) head rest (by omega) hfilter

theorem drawChain_eq {F N : Type} (map : TPhotonMap F N) (GetPhoton : F → Option Nat) :
    ∀ (fuel : Nat) (node : Option Nat) (points : List (Point3D F))
      (numberOfPhoton rayLength : Nat) (chain : List Nat),
      followNext map fuel node = some chain →
      (∀ v ∈ chain, ∀ n, (map.deref v).next = some n → GetPhoton (map.deref n).id = some n) →
      numberOfPhoton = points.length →
      drawChain map GetPhoton fuel node points numberOfPhoton rayLength =
        some (points ++ chain.map (fun v => (map.deref v).pos), numberOfPhoton + chain.length,
          rayLength + chain.length) := by
  intro fuel
  induction fuel with
  | zero =>
    intro node points numberOfPhoton rayLength chain hfollow _ _
    cases node with
    | none =>
      simp only [followNext, Option.some.injEq] at hfollow
      subst hfollow
      simp [drawChain]
    | some p => simp [followNext] at hfollow
  | succ fuel ih =>
    intro node points numberOfPhoton rayLength chain hfollow hlookup hnum
    cases node with
    | none =>
      simp only [followNext, Option.some.injEq] at hfollow
      subst hfollow
      simp [drawChain]
    | some p =>
      simp only [followNext, Option.map_eq_some'] at hfollow
      obtain ⟨rest, hrest, rfl⟩ := hfollow
      have hnode : (match (map.deref p).next with
          | some next => GetPhoton (map.deref next).id
          | none => none) = (map.deref p).next := by
        cases hnext : (map.deref p).next with
        | none => rfl
        | some n => exact hlookup p (List.mem_cons_self _ _) n hnext
      have hset : set1Value points numberOfPhoton (map.deref p).pos
          = points ++ [(map.deref p).pos] := by
        simp [set1Value, hnum]
      simp only [drawChain, hnode, hset]
      rw [ih (map.deref p).next (points ++ [(map.deref p).pos]) (numberOfPhoton + 1)
        (rayLength + 1) rest hrest
        (fun v hv => hlookup v (List.mem_cons_of_mem _ hv)) (by simp [hnum])]
      simp only [List.map_cons, List.length_cons, List.append_assoc, List.singleton_append,
        Option.some.injEq, Prod.mk.injEq, true_and]
      omega

theorem drawLoop_eq {F N : Type} (map : TPhotonMap F N) (GetPhoton : F → Option Nat)
    (fuel : Nat) (photonsList : List Nat) :
    ∀ (chains : List (List Nat)) (heads rest : List Nat) (s : DrawVars F) (assigned : List (Option Nat)),
      List.Forall₂ (fun h c => followNext map fuel (some h) = some c) heads chains →
      (∀ c ∈ chains, ∀ v ∈ c, ∀ n, (map.deref v).next = some n →
        GetPhoton (map.deref n).id = some n) →
      (photonsList.drop s.indexPhotonList).filter (fun p => (map.deref p).prev.isNone)
        = heads ++ rest →
      s.numberOfPhoton = s.points.length →
      s.lines = assigned ++ List.replicate chains.length none →
      drawLoop map GetPhoton fuel photonsList chains.length assigned.length s =
        .drawn (s.points ++ chains.flatMap (fun c => c.map (fun v => (map.deref v).pos)))
          (assigned ++ chains.map (fun c => some c.length)) := by
  intro chains
  induction chains with
  | nil =>
    intro heads rest s assigned _ _ _ _ hlines
    simp [drawLoop, hlines]
  | cons c chains ih =>
    intro heads rest s assigned hheads hlookup hfilter hnum hlines
    cases hheads with
    | cons hc hheads' =>
      rename_i h heads'
      obtain ⟨hget, hprev, hrest⟩ := skipToHead_spec map photonsList
        (photonsList.length - s.indexPhotonList) s.indexPhotonList h (heads' ++ rest) rfl
        (by simpa using hfilter)
      have hchain := drawChain_eq map GetPhoton fuel (some h) s.points s.numberOfPhoton 0 c hc
        (hlookup c (List.mem_cons_self _ _)) hnum
      have hset : s.lines.set assigned.length (some (0 + c.length))
          = (assigned ++ [some (0 + c.length)]) ++ List.replicate chains.length none := by
        rw [hlines, List.length_cons, List.replicate_succ, set_length_append]
        simp
      have := ih heads' rest
        { points := s.points ++ c.map (fun v => (map.deref v).pos)
          lines := s.lines.set assigned.length (some (0 + c.length))
          numberOfPhoton := s.numberOfPhoton + c.length
          indexPhotonList := skipToHead map photonsList
            (photonsList.length - s.indexPhotonList) s.indexPhotonList + 1 }
        (assigned ++ [some (0 + c.length)]) hheads'
        (fun c' hc' => hlookup c' (List.mem_cons_of_mem _ hc')) hrest
        (by simp [hnum]) hset
      simp only [List.length_append, List.length_singleton] at this
      simp only [List.length_cons, drawLoop, hget, hprev, if_true, hchain, this]
      simp

theorem traceLoop_always_none {F N R : Type} [Scalar F] (blank : Photon F N) :
    ∀ (fuel : Nat) (s : TraceVars F N R),
      traceLoop (Intersect_always : Intersector F N R) blank fuel s = none := by
  intro fuel
  induction fuel with
  | zero => intro s; rfl
  | succ fuel ih => intro s; simp only [traceLoop, Intersect_always]; exact ih _

theorem sum_length_eq_length_flatMap {α β : Type} (f : α → β) (chains : List (List α)) :
    (chains.map (fun c => c.length)).sum = (chains.flatMap (fun c => c.map f)).length := by
  induction chains with
  | nil => rfl
  | cons c chains ih =>
    simp only [List.map_cons, List.sum_cons, List.flatMap_cons, List.length_append,
      List.length_map, ih]

/-! ## The tracer: the chain it stores -/

/-- C1, counterexample. In this revision of `trf.cpp` (intersection call commented out) a ray
with the infinite bound meets nothing on its first segment, and `TraceRay` stores a chain of
one vertex, the head alone: not two vertices, and no tail at the distance `0.1`. -/
theorem TraceRay_miss_is_not_two_vertices :
    exampleRay.maxt = Scalar.HUGE_VAL ∧
    ((Intersect_disabled : Intersector ExtRat Nat Unit) exampleRay ()).1.reflectedRay = none ∧
    (TraceRay (Intersect_disabled : Intersector ExtRat Nat Unit) exampleBlank 1 [] exampleRay
        (some 7) [] ()).map
      (fun res => (res.photonMap, res.heap.length, chainFrom res.heap res.heap.length (some 0)))
      = some ([0], 1, some [0]) := by
  decide

/-- C1, as amended. When the ray's bound is `HUGE_VAL` and the intersection step reports no hit
on the first segment (no outgoing ray, bound untouched), `TraceRay` stores a chain of exactly
one vertex, the head at `ray.origin` with no successor; no tail is placed at the distance
`0.1`. More generally every chain `TraceRay` stores has at least one vertex: after `k` hits
it has `k + 2` vertices when `k ≥ 1` or when the bound of the last segment is finite, and the
head alone otherwise. -/
theorem TraceRay_chain_length {F N R : Type} [Scalar F] [DecidableEq F]
    (Intersect : Intersector F N R) (blank : Photon F N) (heap : List (Photon F N))
    (ray : Ray F) (lightNode : Option N) (photonMap : List Nat) (rand : R) :
    (ray.maxt = Scalar.HUGE_VAL → (Intersect ray rand).1.reflectedRay = none →
      (Intersect ray rand).1.maxt = ray.maxt → ∀ fuel, 0 < fuel →
      ∃ res, TraceRay Intersect blank fuel heap ray lightNode photonMap rand = some res ∧
        res.photonMap = photonMap ++ [heap.length] ∧
        res.heap = heap ++ [headPhoton blank ray lightNode] ∧
        chainFrom res.heap res.heap.length (some heap.length) = some [heap.length]) ∧
    (∀ k fuel, stopsAfter Intersect k ray rand = true → k < 2 ^ 31 → k < fuel →
      ∃ res chain, TraceRay Intersect blank fuel heap ray lightNode photonMap rand = some res ∧
        res.photonMap = photonMap ++ [heap.length] ∧
        chainFrom res.heap res.heap.length (some heap.length) = some chain ∧
        1 ≤ chain.length ∧
        (1 ≤ k → chain.length = k + 2) ∧
        (k = 0 → (Intersect ray rand).1.maxt ≠ Scalar.HUGE_VAL → chain.length = 2) ∧
        (k = 0 → (Intersect ray rand).1.maxt = Scalar.HUGE_VAL → chain.length = 1)) := by
  constructor
  · intro hmaxt hnone hsame fuel hfuel
    have hstop : stopsAfter Intersect 0 ray rand = true := by simp [stopsAfter, hnone]
    refine ⟨_, TraceRay_miss Intersect blank fuel heap ray lightNode photonMap rand hstop
      (hsame.trans hmaxt) hfuel, rfl, rfl, ?_⟩
    have := (relink_wellFormed heap [headPhoton blank ray lightNode] (by simp)).2.1
    simpa [relink, headPhoton] using this
  · intro k fuel hstop _ hfuel
    obtain ⟨res, hres, hpm, hheap⟩ :=
      TraceRay_cells Intersect blank k fuel heap ray lightNode photonMap rand hstop hfuel
    have hlen := (hitPhotons_getElem? Intersect blank k ray rand hstop).1
    have hne : (headPhoton blank ray lightNode :: hitPhotons Intersect blank k ray rand ++
        if k = 0 ∧ (Intersect (lastSegment Intersect k ray rand).1
            (lastSegment Intersect k ray rand).2).1.maxt = Scalar.HUGE_VAL
        then []
        else [endPhoton Intersect blank (lastSegment Intersect k ray rand).1
            (lastSegment Intersect k ray rand).2]) ≠ [] := List.cons_ne_nil _ _
    have hwf := (relink_wellFormed heap _ hne).2.1
    rw [← hheap] at hwf
    refine ⟨res, _, hres, hpm, hwf, by simp, ?_, ?_, ?_⟩
    · intro hk
      have : ¬ (k = 0 ∧ (Intersect (lastSegment Intersect k ray rand).1
          (lastSegment Intersect k ray rand).2).1.maxt = Scalar.HUGE_VAL) := by omega
      simp [this, hlen]
    · intro hk hm
      subst hk
      simp [lastSegment, hm, hlen]
    · intro hk hm
      subst hk
      simp [lastSegment, hm, hlen]

/-- C1, instances of the amended statement: the ray of the counterexample, traced with the
intersection call commented out, gives the head alone; the two-mirror scene gives four
vertices. -/
theorem TraceRay_chain_length_witness :
    (∃ res, TraceRay (Intersect_disabled : Intersector ExtRat Nat Unit) exampleBlank 1 []
        exampleRay (some 7) [] () = some res ∧
      res.photonMap = [0] ∧
      res.heap = [headPhoton exampleBlank exampleRay (some 7)] ∧
      chainFrom res.heap res.heap.length (some 0) = some [0]) ∧
    (∃ res chain, TraceRay twoMirrors exampleBlank 3 [] exampleRay (some 7) [] 0 = some res ∧
      chainFrom res.heap res.heap.length (some 0) = some chain ∧ chain.length = 4) := by
  constructor
  · exact (TraceRay_chain_length (Intersect_disabled : Intersector ExtRat Nat Unit) exampleBlank
      [] exampleRay (some 7) [] ()).1 (by decide) (by decide) (by decide) 1 (by decide)
  · obtain ⟨res, chain, hres, -, hchain, -, hlen, -⟩ :=
      (TraceRay_chain_length twoMirrors exampleBlank [] exampleRay (some 7) [] 0).2 2 3
        (by decide) (by decide) (by decide)
    exact ⟨res, chain, hres, hchain, hlen (by decide)⟩

/-- C2. Whenever `TraceRay` returns, the photon map has received exactly one more `StoreRay`
call, whose argument is the head of the chain: the vertex at the origin the ray had on entry,
tagged with `lightNode`, without predecessor; the photons that existed before are untouched.
It does return as soon as the intersection step stops returning rays, and in this revision
(call commented out) it returns on every input. -/
theorem TraceRay_stores_head_once {F N R : Type} [Scalar F] [DecidableEq F]
    (Intersect : Intersector F N R) (blank : Photon F N) (heap : List (Photon F N))
    (ray : Ray F) (lightNode : Option N) (photonMap : List Nat) (rand : R) :
    (∀ fuel res, TraceRay Intersect blank fuel heap ray lightNode photonMap rand = some res →
      res.photonMap = photonMap ++ [heap.length] ∧
      (∃ cells, res.heap = heap ++ cells) ∧
      ∃ c, res.heap[heap.length]? = some c ∧ c.pos = ray.origin ∧
        c.intersectedSurface = lightNode ∧ c.prev = none) ∧
    (∀ k fuel, stopsAfter Intersect k ray rand = true → k < fuel →
      (TraceRay Intersect blank fuel heap ray lightNode photonMap rand).isSome = true) ∧
    (∀ fuel, 0 < fuel →
      (TraceRay (Intersect_disabled : Intersector F N R) blank fuel heap ray lightNode photonMap
        rand).isSome = true) := by
  refine ⟨?_, ?_, ?_⟩
  · intro fuel res hres
    obtain ⟨k, hk, hstop⟩ :=
      TraceRay_some_stops Intersect blank fuel heap ray lightNode photonMap rand res hres
    obtain ⟨res', hres', hpm, hheap⟩ :=
      TraceRay_cells Intersect blank k fuel heap ray lightNode photonMap rand hstop hk
    obtain rfl : res = res' := Option.some.inj (hres.symm.trans hres')
    have hne : (headPhoton blank ray lightNode :: hitPhotons Intersect blank k ray rand ++
        if k = 0 ∧ (Intersect (lastSegment Intersect k ray rand).1
            (lastSegment Intersect k ray rand).2).1.maxt = Scalar.HUGE_VAL
        then []
        else [endPhoton Intersect blank (lastSegment Intersect k ray rand).1
            (lastSegment Intersect k ray rand).2]) ≠ [] := List.cons_ne_nil _ _
    obtain ⟨c, d, hc, hd, hpos, hsurf, -, hprev, -⟩ :=
      (relink_wellFormed heap _ hne).2.2 0 (by simp)
    rw [← hheap] at hc
    simp at hd
    subst hd
    exact ⟨hpm, ⟨_, hheap⟩, c, hc, hpos, hsurf, by simpa using hprev⟩
  · intro k fuel hstop hk
    obtain ⟨res, hres, -⟩ :=
      TraceRay_cells Intersect blank k fuel heap ray lightNode photonMap rand hstop hk
    simp [hres]
  · intro fuel hfuel
    obtain ⟨res, hres, -⟩ :=
      TraceRay_cells (Intersect_disabled : Intersector F N R) blank 0 fuel heap ray lightNode
        photonMap rand rfl hfuel
    simp [hres]

/-- C2, instances: the two-mirror scene and the run with the intersection call commented out,
both started on a heap that already holds one photon and a photon map that already holds one
chain. -/
theorem TraceRay_stores_head_once_witness :
    (∃ res, TraceRay twoMirrors exampleBlank 3 [exampleBlank] exampleRay (some 7) [0] 0
        = some res ∧
      res.photonMap = [0, 1] ∧
      ∃ c, res.heap[1]? = some c ∧ c.pos = exampleRay.origin ∧
        c.intersectedSurface = some 7 ∧ c.prev = none) ∧
    (TraceRay (Intersect_disabled : Intersector ExtRat Nat Unit) exampleBlank 1 [exampleBlank]
      exampleRay (some 7) [0] ()).isSome = true := by
  have hall := TraceRay_stores_head_once twoMirrors exampleBlank [exampleBlank] exampleRay
    (some 7) [0] 0
  obtain ⟨res, hres⟩ := Option.isSome_iff_exists.mp (hall.2.1 2 3 (by decide) (by decide))
  obtain ⟨hpm, -, hhead⟩ := hall.1 3 res hres
  exact ⟨⟨res, hres, hpm, hhead⟩,
    (TraceRay_stores_head_once (Intersect_disabled : Intersector ExtRat Nat Unit) exampleBlank
      [exampleBlank] exampleRay (some 7) [0] ()).2.2 1 (by decide)⟩

/-- The branch `if( reflectedRay )` of the loop, which this revision never enters: with an
intersection step in the place of the commented-out call that returns an outgoing ray on
`k ≥ 1` successive iterations and then none, `TraceRay` would store a chain of exactly `k + 2`
vertices: the head at the origin, then for each `i < k` a vertex at `ray( ray.maxt )` of the
segment iteration `i` consumed, carrying the node struck and the face flag (1 front, 0 back)
reported for that iteration, and a final vertex on the last outgoing ray at its bound, or at
the distance `0.1` when that bound is `HUGE_VAL`. -/
theorem TraceRay_chain_of_hits {F N R : Type} [Scalar F] [DecidableEq F]
    (Intersect : Intersector F N R) (blank : Photon F N) (heap : List (Photon F N))
    (ray : Ray F) (lightNode : Option N) (photonMap : List Nat) (rand : R) (k fuel : Nat)
    (hk : 1 ≤ k) (hint : k < 2 ^ 31) (hstop : stopsAfter Intersect k ray rand = true)
    (hfuel : k < fuel) :
    ∃ res, TraceRay Intersect blank fuel heap ray lightNode photonMap rand = some res ∧
      res.photonMap = photonMap ++ [heap.length] ∧
      res.heap.length = heap.length + (k + 2) ∧
      chainFrom res.heap res.heap.length (some heap.length)
        = some (List.range' heap.length (k + 2)) ∧
      (∃ c, res.heap[heap.length]? = some c ∧ c.pos = ray.origin) ∧
      (∀ i, i < k → ∃ ri randi c, segment Intersect i ray rand = some (ri, randi) ∧
        res.heap[heap.length + (i + 1)]? = some c ∧
        c.pos = ({ ri with maxt := (Intersect ri randi).1.maxt } : Ray F).apply
          (Intersect ri randi).1.maxt ∧
        c.intersectedSurface = (Intersect ri randi).1.intersectedSurface ∧
        c.surfaceSide = if (Intersect ri randi).1.isFront then Scalar.one else Scalar.zero) ∧
      (∃ rk randk c, segment Intersect k ray rand = some (rk, randk) ∧
        res.heap[heap.length + (k + 1)]? = some c ∧
        c.pos = rk.apply (if (Intersect rk randk).1.maxt = Scalar.HUGE_VAL then Scalar.tenth
          else (Intersect rk randk).1.maxt)) := by
  obtain ⟨res, hres, hpm, hheap⟩ :=
    TraceRay_cells Intersect blank k fuel heap ray lightNode photonMap rand hstop hfuel
  have htail : ¬ (k = 0 ∧ (Intersect (lastSegment Intersect k ray rand).1
      (lastSegment Intersect k ray rand).2).1.maxt = Scalar.HUGE_VAL) := by omega
  simp only [htail, if_false] at hheap
  obtain ⟨hlen, hhits⟩ := hitPhotons_getElem? Intersect blank k ray rand hstop
  have hne : (headPhoton blank ray lightNode :: hitPhotons Intersect blank k ray rand ++
      [endPhoton Intersect blank (lastSegment Intersect k ray rand).1
          (lastSegment Intersect k ray rand).2]) ≠ [] := List.cons_ne_nil _ _
  have hcl : (headPhoton blank ray lightNode :: hitPhotons Intersect blank k ray rand ++
      [endPhoton Intersect blank (lastSegment Intersect k ray rand).1
          (lastSegment Intersect k ray rand).2]).length = k + 2 := by simp [hlen]
  obtain ⟨hl, hchain, hcell⟩ := relink_wellFormed heap _ hne
  rw [← hheap] at hl hchain hcell
  rw [hcl] at hl hchain hcell
  refine ⟨res, hres, hpm, hl, hchain, ?_, ?_, ?_⟩
  · obtain ⟨c, d, hc, hd, hpos, -⟩ := hcell 0 (by omega)
    simp at hd
    subst hd
    exact ⟨c, hc, hpos⟩
  · intro i hi
    obtain ⟨ri, randi, hseg, hget⟩ := hhits i hi
    obtain ⟨c, d, hc, hd, hpos, hsurf, hside, -⟩ := hcell (i + 1) (by omega)
    have hi' : i < (hitPhotons Intersect blank k ray rand).length := by omega
    simp [List.getElem?_append_left hi', hget] at hd
    subst hd
    exact ⟨ri, randi, c, hseg, hc, hpos, hsurf, hside⟩
  · obtain ⟨hseg, -⟩ := segment_eq_lastSegment Intersect k ray rand hstop
    obtain ⟨c, d, hc, hd, hpos, -⟩ := hcell (k + 1) (by omega)
    have hk' : (hitPhotons Intersect blank k ray rand).length ≤ k := by omega
    simp [List.getElem?_append_right hk', hlen] at hd
    subst hd
    exact ⟨_, _, c, hseg, hc, hpos⟩

/-- The branch `if( reflectedRay )` on the two-mirror scene, were its intersection routine
called: two hits, then escape, a chain of 4 vertices. -/
theorem TraceRay_chain_of_hits_witness :
    ∃ res, TraceRay twoMirrors exampleBlank 3 [] exampleRay (some 7) [] 0 = some res ∧
      res.heap.length = 4 ∧
      chainFrom res.heap res.heap.length (some 0) = some [0, 1, 2, 3] := by
  obtain ⟨res, h1, -, h3, h4, -⟩ :=
    TraceRay_chain_of_hits twoMirrors exampleBlank [] exampleRay (some 7) [] 0 2 3
      (by decide) (by decide) (by decide) (by decide)
  exact ⟨res, h1, h3, h4⟩

/-- C3, the failing input evaluated. The intersection routine of the two-mirror scene returns
an outgoing ray twice and then none, but `TraceRay` never calls it (line 199 is commented
out): on that scene it stores the head alone, a chain of 1 vertex and not of 4, and with a
finite bound the head and an end point, 2 vertices: no hit vertex is ever stored. -/
theorem TraceRay_ignores_the_scene :
    stopsAfter twoMirrors 2 exampleRay 0 = true ∧
    (TraceRay (Intersect_disabled : Intersector ExtRat Nat Nat) exampleBlank 1 [] exampleRay
        (some 7) [] 0).map
      (fun res => (res.photonMap, res.heap.length, chainFrom res.heap res.heap.length (some 0)))
      = some ([0], 1, some [0]) ∧
    (TraceRay (Intersect_disabled : Intersector ExtRat Nat Nat) exampleBlank 1 []
        { exampleRay with maxt := .fin 3 } (some 7) [] 0).map
      (fun res => (res.photonMap, res.heap.length, chainFrom res.heap res.heap.length (some 0)))
      = some ([0], 2, some [0, 1]) := by
  decide

/-- C4. Whenever `TraceRay` returns, the `n ≥ 1` vertices it created (the addresses from the old
end of the heap on) form a well-formed, acyclic doubly-linked list: following `next` from the
head reaches the null pointer after visiting each of them exactly once, in the order of
creation; the head has no predecessor and the last vertex no successor; `v.next.prev == v`
for every vertex with a successor and `v.prev.next == v` for every vertex with a
predecessor. It does return as soon as the intersection step stops returning rays, and in
this revision (call commented out) it returns on every input. -/
theorem TraceRay_chain_wellFormed {F N R : Type} [Scalar F] [DecidableEq F]
    (Intersect : Intersector F N R) (blank : Photon F N) (heap : List (Photon F N))
    (ray : Ray F) (lightNode : Option N) (photonMap : List Nat) (rand : R) :
    (∀ fuel res, TraceRay Intersect blank fuel heap ray lightNode photonMap rand = some res →
      ∃ n, 0 < n ∧ res.heap.length = heap.length + n ∧
        chainFrom res.heap res.heap.length (some heap.length)
          = some (List.range' heap.length n) ∧
        (∃ c, res.heap[heap.length]? = some c ∧ c.prev = none) ∧
        (∃ c, res.heap[heap.length + n - 1]? = some c ∧ c.next = none) ∧
        (∀ v c w, heap.length ≤ v → res.heap[v]? = some c → c.next = some w →
          ∃ d, res.heap[w]? = some d ∧ d.prev = some v) ∧
        (∀ v c u, heap.length ≤ v → res.heap[v]? = some c → c.prev = some u →
          ∃ d, res.heap[u]? = some d ∧ d.next = some v)) ∧
    (∀ k fuel, stopsAfter Intersect k ray rand = true → k < fuel →
      (TraceRay Intersect blank fuel heap ray lightNode photonMap rand).isSome = true) ∧
    (∀ fuel, 0 < fuel →
      (TraceRay (Intersect_disabled : Intersector F N R) blank fuel heap ray lightNode photonMap
        rand).isSome = true) := by
  refine ⟨?_, ?_, ?_⟩
  · intro fuel res hres
    obtain ⟨k, hk, hstop⟩ :=
      TraceRay_some_stops Intersect blank fuel heap ray lightNode photonMap rand res hres
    obtain ⟨res', hres', -, hheap⟩ :=
      TraceRay_cells Intersect blank k fuel heap ray lightNode photonMap rand hstop hk
    obtain rfl : res = res' := Option.some.inj (hres.symm.trans hres')
    have hne : (headPhoton blank ray lightNode :: hitPhotons Intersect blank k ray rand ++
        if k = 0 ∧ (Intersect (lastSegment Intersect k ray rand).1
            (lastSegment Intersect k ray rand).2).1.maxt = Scalar.HUGE_VAL
        then []
        else [endPhoton Intersect blank (lastSegment Intersect k ray rand).1
            (lastSegment Intersect k ray rand).2]) ≠ [] := List.cons_ne_nil _ _
    generalize (headPhoton blank ray lightNode :: hitPhotons Intersect blank k ray rand ++
        if k = 0 ∧ (Intersect (lastSegment Intersect k ray rand).1
            (lastSegment Intersect k ray rand).2).1.maxt = Scalar.HUGE_VAL
        then []
        else [endPhoton Intersect blank (lastSegment Intersect k ray rand).1
            (lastSegment Intersect k ray rand).2]) = cs at hheap hne
    have hpos : 0 < cs.length := List.length_pos.mpr hne
    obtain ⟨hl, hchain, hcell⟩ := relink_wellFormed heap cs hne
    rw [← hheap] at hl hchain hcell
    refine ⟨cs.length, hpos, hl, hchain, ?_, ?_, ?_, ?_⟩
    · obtain ⟨c, d, hc, -, -, -, -, hprev, -⟩ := hcell 0 hpos
      exact ⟨c, hc, by simpa using hprev⟩
    · obtain ⟨c, d, hc, -, -, -, -, -, hnext⟩ := hcell (cs.length - 1) (by omega)
      refine ⟨c, ?_, ?_⟩
      · rw [show heap.length + cs.length - 1 = heap.length + (cs.length - 1) by omega]
        exact hc
      · rw [hnext, if_neg (by omega)]
    · intro v c w hv hc hw
      have hvlt : v < res.heap.length := by
        by_contra hcon
        rw [List.getElem?_eq_none (by omega)] at hc
        exact absurd hc (by simp)
      obtain ⟨i, rfl⟩ : ∃ i, v = heap.length + i := ⟨v - heap.length, by omega⟩
      obtain ⟨c', d, hc', -, -, -, -, -, hnext⟩ := hcell i (by omega)
      obtain rfl : c' = c := Option.some.inj (hc'.symm.trans hc)
      rw [hnext] at hw
      by_cases hi : i + 1 < cs.length
      · rw [if_pos hi, Option.some.injEq] at hw
        subst hw
        obtain ⟨e, d', he, -, -, -, -, hprev, -⟩ := hcell (i + 1) hi
        refine ⟨e, he, ?_⟩
        rw [hprev, if_neg (by omega)]
        congr 1
      · rw [if_neg hi] at hw
        exact absurd hw (by simp)
    · intro v c u hv hc hu
      have hvlt : v < res.heap.length := by
        by_contra hcon
        rw [List.getElem?_eq_none (by omega)] at hc
        exact absurd hc (by simp)
      obtain ⟨i, rfl⟩ : ∃ i, v = heap.length + i := ⟨v - heap.length, by omega⟩
      obtain ⟨c', d, hc', -, -, -, -, hprev, -⟩ := hcell i (by omega)
      obtain rfl : c' = c := Option.some.inj (hc'.symm.trans hc)
      rw [hprev] at hu
      by_cases hi : i = 0
      · rw [if_pos hi] at hu
        exact absurd hu (by simp)
      · rw [if_neg hi, Option.some.injEq] at hu
        subst hu
        obtain ⟨e, d', he, -, -, -, -, -, hnext⟩ := hcell (i - 1) (by omega)
        refine ⟨e, ?_, ?_⟩
        · rw [show heap.length + i - 1 = heap.length + (i - 1) by omega]
          exact he
        · rw [hnext, if_pos (by omega)]
          congr 1
          omega
  · intro k fuel hstop hk
    obtain ⟨res, hres, -⟩ :=
      TraceRay_cells Intersect blank k fuel heap ray lightNode photonMap rand hstop hk
    simp [hres]
  · intro fuel hfuel
    obtain ⟨res, hres, -⟩ :=
      TraceRay_cells (Intersect_disabled : Intersector F N R) blank 0 fuel heap ray lightNode
        photonMap rand rfl hfuel
    simp [hres]

/-- C4, instances: the chain of the two-mirror scene, built after a heap of one photon, and
the run with the intersection call commented out. -/
theorem TraceRay_chain_wellFormed_witness :
    (∃ res, TraceRay twoMirrors exampleBlank 3 [exampleBlank] exampleRay (some 7) [0] 0
        = some res ∧
      ∃ n, 0 < n ∧ res.heap.length = 1 + n ∧
        chainFrom res.heap res.heap.length (some 1) = some (List.range' 1 n)) ∧
    (TraceRay (Intersect_disabled : Intersector ExtRat Nat Unit) exampleBlank 1 [exampleBlank]
      exampleRay (some 7) [0] ()).isSome = true := by
  have hall := TraceRay_chain_wellFormed twoMirrors exampleBlank [exampleBlank] exampleRay
    (some 7) [0] 0
  obtain ⟨res, hres⟩ := Option.isSome_iff_exists.mp (hall.2.1 2 3 (by decide) (by decide))
  obtain ⟨n, hn, hlen, hchain, -⟩ := hall.1 3 res hres
  exact ⟨⟨res, hres, n, hn, hlen, hchain⟩,
    (TraceRay_chain_wellFormed (Intersect_disabled : Intersector ExtRat Nat Unit) exampleBlank
      [exampleBlank] exampleRay (some 7) [0] ()).2.2 1 (by decide)⟩

/-! ## The exports -/

/-- C5, counterexample. Node 5 of the example scene is neither a shape kit nor a light kit: with
a destination that can be opened, both per-surface exports still return 0. -/
theorem ExportSurface_fails_on_openable_file :
    (ExportSurfaceGlobalCoordinates exampleNodes true 5 (.fin 500) exampleMap).1 = 0 ∧
    (ExportSurfaceLocalCoordinates exampleNodes true 5 (.fin 500) exampleMap).1 = 0 := by
  decide

/-- C5, as amended. `ExportAll` returns 0 if and only if the destination cannot be opened for
writing. `ExportSurfaceGlobalCoordinates` and `ExportSurfaceLocalCoordinates` return 0 if and
only if the target node is neither a shape kit nor a light kit or the destination cannot be
opened. In every other case, an empty result set included, each of the three returns 1. -/
theorem Export_status {F N : Type} [Scalar F] (nodes : InstanceNodes F N) (canOpen : Bool)
    (selectedSurface : N) (wPhoton : F) (photonMap : TPhotonMap F N) :
    ((ExportAll nodes canOpen wPhoton photonMap).1 = 0 ↔ canOpen = false) ∧
    ((ExportAll nodes canOpen wPhoton photonMap).1 = 0 ∨
      (ExportAll nodes canOpen wPhoton photonMap).1 = 1) ∧
    ((ExportSurfaceGlobalCoordinates nodes canOpen selectedSurface wPhoton photonMap).1 = 0 ↔
      (nodes.isDerivedFromTShapeKit selectedSurface = false ∧
        nodes.isDerivedFromTLightKit selectedSurface = false) ∨ canOpen = false) ∧
    ((ExportSurfaceGlobalCoordinates nodes canOpen selectedSurface wPhoton photonMap).1 = 0 ∨
      (ExportSurfaceGlobalCoordinates nodes canOpen selectedSurface wPhoton photonMap).1 = 1) ∧
    ((ExportSurfaceLocalCoordinates nodes canOpen selectedSurface wPhoton photonMap).1 = 0 ↔
      (nodes.isDerivedFromTShapeKit selectedSurface = false ∧
        nodes.isDerivedFromTLightKit selectedSurface = false) ∨ canOpen = false) ∧
    ((ExportSurfaceLocalCoordinates nodes canOpen selectedSurface wPhoton photonMap).1 = 0 ∨
      (ExportSurfaceLocalCoordinates nodes canOpen selectedSurface wPhoton photonMap).1 = 1) := by
  rw [ExportAll_eq, ExportSurfaceGlobalCoordinates_eq, ExportSurfaceLocalCoordinates_eq]
  cases nodes.isDerivedFromTShapeKit selectedSurface <;>
  cases nodes.isDerivedFromTLightKit selectedSurface <;>
  cases canOpen <;> simp

/-- C6, the failing input evaluated. For the two-vertex map and the power `500.0`, `ExportAll`
writes the power and the first record without anything in between: the text has two lines,
and the first one starts with `5001`, the digits of the power run into the first identifier. -/
theorem ExportAll_text_example :
    text ExtRat.print (ExportAll exampleNodes true (.fin 500) exampleMap).2
      = "5001\t0\t0\t0\t0\t2\t//SunNode\n2\t0\t0\t1\t1\t0\t-\n" := by
  decide

/-- C7. When the file opens, `ExportAll` writes the power and then, for each vertex of
`GetAllPhotons()` in list order, exactly one record: the identifier, x, y, z, the predecessor's
identifier (0 when `prev` is null), the successor's identifier (0 when `next` is null) and
the URL of the struck node (`-` when there is none), each followed by a tab except the last,
which is followed by a newline. It queries the photon map once and closes the file. -/
theorem ExportAll_records {F N : Type} [Scalar F] (nodes : InstanceNodes F N) (wPhoton : F)
    (photonMap : TPhotonMap F N) :
    ExportAll nodes true wPhoton photonMap =
      (1, [.openWriteOnly, .num wPhoton, .getAllPhotons] ++
        photonMap.GetAllPhotons.flatMap (fun v =>
          [.num (photonMap.deref v).id, .str "\t",
           .num (photonMap.deref v).pos.x, .str "\t",
           .num (photonMap.deref v).pos.y, .str "\t",
           .num (photonMap.deref v).pos.z, .str "\t",
           .num (((photonMap.deref v).prev.map (fun p => (photonMap.deref p).id)).getD
             Scalar.zero), .str "\t",
           .num (((photonMap.deref v).next.map (fun p => (photonMap.deref p).id)).getD
             Scalar.zero), .str "\t",
           .str (((photonMap.deref v).intersectedSurface.map nodes.GetNodeURL).getD "-"),
           .str "\n"]) ++ [.close]) := by
  rw [ExportAll_eq]
  simp only [Bool.true_eq_false, if_false, Prod.mk.injEq, true_and, List.append_cancel_right_eq,
    List.append_cancel_left_eq]
  congr 1
  funext v
  simp only [prev_id, next_id]
  cases (photonMap.deref v).prev <;> cases (photonMap.deref v).next <;>
    cases (photonMap.deref v).intersectedSurface <;> rfl

/-- C8. When the target is a shape kit or a light kit and the file opens,
`ExportSurfaceGlobalCoordinates` returns 1 and writes the power followed by, for each vertex of
`GetSurfacePhotons( target )` in list order and for no other vertex, the six values id, x, y,
z, prevId, nextId (the last two 0 when absent), with nothing in between; when the list is
empty it writes the power alone. -/
theorem ExportSurfaceGlobalCoordinates_values {F N : Type} [Scalar F]
    (nodes : InstanceNodes F N) (selectedSurface : N) (wPhoton : F) (photonMap : TPhotonMap F N)
    (htype : nodes.isDerivedFromTShapeKit selectedSurface = true ∨
      nodes.isDerivedFromTLightKit selectedSurface = true) :
    ExportSurfaceGlobalCoordinates nodes true selectedSurface wPhoton photonMap =
      (1, [.openWriteOnly, .num wPhoton, .getSurfacePhotons selectedSurface] ++
        (photonMap.GetSurfacePhotons selectedSurface).flatMap (fun v =>
          [.num (photonMap.deref v).id,
           .num (photonMap.deref v).pos.x,
           .num (photonMap.deref v).pos.y,
           .num (photonMap.deref v).pos.z,
           .num (((photonMap.deref v).prev.map (fun p => (photonMap.deref p).id)).getD
             Scalar.zero),
           .num (((photonMap.deref v).next.map (fun p => (photonMap.deref p).id)).getD
             Scalar.zero)]) ++ [.close]) ∧
    written (ExportSurfaceGlobalCoordinates nodes true selectedSurface wPhoton photonMap).2 =
      wPhoton :: (photonMap.GetSurfacePhotons selectedSurface).flatMap (fun v =>
        [(photonMap.deref v).id, (photonMap.deref v).pos.x, (photonMap.deref v).pos.y,
         (photonMap.deref v).pos.z,
         ((photonMap.deref v).prev.map (fun p => (photonMap.deref p).id)).getD Scalar.zero,
         ((photonMap.deref v).next.map (fun p => (photonMap.deref p).id)).getD Scalar.zero]) ∧
    (photonMap.GetSurfacePhotons selectedSurface = [] →
      written (ExportSurfaceGlobalCoordinates nodes true selectedSurface wPhoton photonMap).2 =
        [wPhoton]) := by
  have hguard : ¬ (nodes.isDerivedFromTShapeKit selectedSurface = false ∧
      nodes.isDerivedFromTLightKit selectedSurface = false) := by
    rcases htype with h | h <;> simp [h]
  have hp : ∀ v, prev_id photonMap v =
      ((photonMap.deref v).prev.map (fun p => (photonMap.deref p).id)).getD Scalar.zero := by
    intro v; simp only [prev_id]; cases (photonMap.deref v).prev <;> rfl
  have hn : ∀ v, next_id photonMap v =
      ((photonMap.deref v).next.map (fun p => (photonMap.deref p).id)).getD Scalar.zero := by
    intro v; simp only [next_id]; cases (photonMap.deref v).next <;> rfl
  rw [ExportSurfaceGlobalCoordinates_eq]
  simp only [hguard, if_false, Bool.true_eq_false, hp, hn, true_and]
  constructor
  · simp [written, written_append, written_flatMap]
  · intro hempty
    simp [hempty, written]

/-- C8, an instance: the light node 7 of the example scene, whose only photon is photon 1,
and the shape node 3, which no photon struck. -/
theorem ExportSurfaceGlobalCoordinates_values_witness :
    written (ExportSurfaceGlobalCoordinates exampleNodes true 7 (.fin 500) exampleMap).2 =
      ExtRat.fin 500 :: (exampleMap.GetSurfacePhotons 7).flatMap (fun v =>
        [(exampleMap.deref v).id, (exampleMap.deref v).pos.x, (exampleMap.deref v).pos.y,
         (exampleMap.deref v).pos.z,
         ((exampleMap.deref v).prev.map (fun p => (exampleMap.deref p).id)).getD Scalar.zero,
         ((exampleMap.deref v).next.map (fun p => (exampleMap.deref p).id)).getD Scalar.zero]) ∧
    written (ExportSurfaceGlobalCoordinates exampleNodes true 3 (.fin 500) exampleMap).2 =
      [ExtRat.fin 500] :=
  ⟨(ExportSurfaceGlobalCoordinates_values exampleNodes 7 (.fin 500) exampleMap
      (Or.inr (by decide))).2.1,
   (ExportSurfaceGlobalCoordinates_values exampleNodes 3 (.fin 500) exampleMap
      (Or.inl (by decide))).2.2 (by decide)⟩

/-- C9. For every photon map, power value and target node, the two per-surface exports return
the same status, and the values `ExportSurfaceLocalCoordinates` writes are those
`ExportSurfaceGlobalCoordinates` writes with the position of each record replaced by its image
under the target's intersection transform: same power, same records in the same order, same
id, prevId and nextId. Equivalently, the local export is the global export of the map with
every position transformed. -/
theorem ExportSurfaceLocalCoordinates_transforms_global {F N : Type} [Scalar F]
    (nodes : InstanceNodes F N) (canOpen : Bool) (selectedSurface : N) (wPhoton : F)
    (photonMap : TPhotonMap F N) :
    (ExportSurfaceLocalCoordinates nodes canOpen selectedSurface wPhoton photonMap).1 =
      (ExportSurfaceGlobalCoordinates nodes canOpen selectedSurface wPhoton photonMap).1 ∧
    written (ExportSurfaceLocalCoordinates nodes canOpen selectedSurface wPhoton photonMap).2 =
      (match written
          (ExportSurfaceGlobalCoordinates nodes canOpen selectedSurface wPhoton photonMap).2 with
        | [] => []
        | power :: records =>
          power :: transformRecords (nodes.GetIntersectionTransform selectedSurface) records) ∧
    ExportSurfaceLocalCoordinates nodes canOpen selectedSurface wPhoton photonMap =
      ExportSurfaceGlobalCoordinates nodes canOpen selectedSurface wPhoton
        (photonMap.mapPos (nodes.GetIntersectionTransform selectedSurface)) := by
  rw [ExportSurfaceLocalCoordinates_eq, ExportSurfaceGlobalCoordinates_eq,
    ExportSurfaceGlobalCoordinates_eq]
  by_cases hguard : nodes.isDerivedFromTShapeKit selectedSurface = false ∧
      nodes.isDerivedFromTLightKit selectedSurface = false
  · simp [hguard, written]
  · cases canOpen with
    | false => simp [hguard, written]
    | true =>
      simp only [hguard, if_false, Bool.true_eq_false, true_and]
      refine ⟨?_, rfl⟩
      have h := transformRecords_flatMap (nodes.GetIntersectionTransform selectedSurface)
        (photonMap.GetSurfacePhotons selectedSurface) (fun v => (photonMap.deref v).id)
        (prev_id photonMap) (next_id photonMap) (fun v => (photonMap.deref v).pos)
      simp [written, written_append, written_flatMap, h]

/-- C10. For both per-surface exports: when the target node is neither a shape kit nor a light
kit the export returns 0 and has no effect at all (the destination is not opened, nothing is
written, the photon map is not queried); when it is one of the two, the export goes on to
open the destination, and returns 1 if that succeeds. -/
theorem ExportSurface_type_check {F N : Type} [Scalar F] (nodes : InstanceNodes F N)
    (canOpen : Bool) (selectedSurface : N) (wPhoton : F) (photonMap : TPhotonMap F N) :
    (nodes.isDerivedFromTShapeKit selectedSurface = false →
      nodes.isDerivedFromTLightKit selectedSurface = false →
      ExportSurfaceGlobalCoordinates nodes canOpen selectedSurface wPhoton photonMap = (0, []) ∧
      ExportSurfaceLocalCoordinates nodes canOpen selectedSurface wPhoton photonMap = (0, [])) ∧
    (nodes.isDerivedFromTShapeKit selectedSurface = true ∨
        nodes.isDerivedFromTLightKit selectedSurface = true →
      (ExportSurfaceGlobalCoordinates nodes canOpen selectedSurface wPhoton photonMap).2.head?
        = some .openWriteOnly ∧
      (ExportSurfaceLocalCoordinates nodes canOpen selectedSurface wPhoton photonMap).2.head?
        = some .openWriteOnly ∧
      (canOpen = true →
        (ExportSurfaceGlobalCoordinates nodes canOpen selectedSurface wPhoton photonMap).1 = 1 ∧
        (ExportSurfaceLocalCoordinates nodes canOpen selectedSurface wPhoton photonMap).1 = 1))
    := by
  rw [ExportSurfaceLocalCoordinates_eq, ExportSurfaceGlobalCoordinates_eq]
  constructor
  · intro hs hl
    simp [hs, hl]
  · intro htype
    have hguard : ¬ (nodes.isDerivedFromTShapeKit selectedSurface = false ∧
        nodes.isDerivedFromTLightKit selectedSurface = false) := by
      rcases htype with h | h <;> simp [h]
    cases canOpen <;> simp [hguard]

/-- C10, an instance: node 5 of the example scene is blocked, the light node 7 is not. -/
theorem ExportSurface_type_check_witness :
    (ExportSurfaceGlobalCoordinates exampleNodes true 5 (.fin 500) exampleMap = (0, []) ∧
      ExportSurfaceLocalCoordinates exampleNodes true 5 (.fin 500) exampleMap = (0, [])) ∧
    (ExportSurfaceGlobalCoordinates exampleNodes true 7 (.fin 500) exampleMap).2.head?
      = some .openWriteOnly ∧
    (ExportSurfaceLocalCoordinates exampleNodes true 7 (.fin 500) exampleMap).2.head?
      = some .openWriteOnly ∧
    (ExportSurfaceGlobalCoordinates exampleNodes true 7 (.fin 500) exampleMap).1 = 1 ∧
    (ExportSurfaceLocalCoordinates exampleNodes true 7 (.fin 500) exampleMap).1 = 1 :=
  ⟨(ExportSurface_type_check exampleNodes true 5 (.fin 500) exampleMap).1 (by decide) (by decide),
   ((ExportSurface_type_check exampleNodes true 7 (.fin 500) exampleMap).2
      (Or.inr (by decide))).1,
   ((ExportSurface_type_check exampleNodes true 7 (.fin 500) exampleMap).2
      (Or.inr (by decide))).2.1,
   ((ExportSurface_type_check exampleNodes true 7 (.fin 500) exampleMap).2
      (Or.inr (by decide))).2.2 rfl⟩

/-! ## The drawing of rays -/

/-- The polylines drawn for a given non-negative value `truncated` of the cast on line 267:
with `N = max(1, truncated)` and a photon map with at least `N` chain heads whose first `N`
chains are finite and whose lookup by identifier returns the successor it is asked for, the
`N` polylines are the chains of the first `N` heads of `GetAllPhotons()`. -/
theorem DrawPhotonMapRays_polylines {F N : Type} (map : TPhotonMap F N)
    (GetPhoton : F → Option Nat) (fuel : Nat) (truncated : Int) (chains : List (List Nat))
    (hcast : 0 ≤ truncated)
    (hheads : max 1 truncated.toNat ≤ (chainHeads map).length)
    (hchains : List.Forall₂ (fun h c => followNext map fuel (some h) = some c)
      ((chainHeads map).take (max 1 truncated.toNat)) chains)
    (hlookup : ∀ c ∈ chains, ∀ v ∈ c, ∀ n, (map.deref v).next = some n →
      GetPhoton (map.deref n).id = some n) :
    DrawPhotonMapRays map GetPhoton fuel truncated =
      .drawn (chains.flatMap (fun c => c.map (fun v => (map.deref v).pos)))
        (chains.map (fun c => some c.length)) ∧
    chains.length = max 1 truncated.toNat ∧
    (chains.map (fun c => c.length)).sum =
      (chains.flatMap (fun c => c.map (fun v => (map.deref v).pos))).length := by
  have hlen : chains.length = max 1 truncated.toNat := by
    have := hchains.length_eq
    rw [List.length_take] at this
    omega
  have hdraw : (if truncated = 0 then (1 : Int) else truncated).toNat = chains.length := by
    rw [hlen]
    split <;> omega
  have hneg : ¬ (if truncated = 0 then (1 : Int) else truncated) < 0 := by
    split <;> omega
  refine ⟨?_, hlen, ?_⟩
  · have hloop := drawLoop_eq map GetPhoton fuel map.GetAllPhotons chains
      ((chainHeads map).take (max 1 truncated.toNat))
      ((chainHeads map).drop (max 1 truncated.toNat))
      { points := [], lines := List.replicate chains.length none, numberOfPhoton := 0,
        indexPhotonList := 0 }
      [] hchains hlookup (by simp [chainHeads]) rfl (by simp)
    simp only [DrawPhotonMapRays, hneg, if_false, hdraw]
    simpa using hloop
  · exact sum_length_eq_length_flatMap _ chains

/-- The cast of line 267 for 3 rays and the fraction `-100`: the quotient is `-1`, the product
`-3`. -/
theorem drawRaysCast_negative_example : drawRaysCast exampleCastOps 3 (.fin (-100)) = -3 := by
  have h : (3 : ℚ) * (-100 / 100) = ((-3 : Int) : ℚ) := by norm_num
  show Int.tdiv (((3 : Nat) : ℚ) * (-100 / 100)).num (((3 : Nat) : ℚ) * (-100 / 100)).den = -3
  rw [Nat.cast_ofNat, h, Rat.intCast_num, Rat.intCast_den]
  decide

/-- The cast of line 267 for 1 ray and the fraction `100`: the quotient is `1`, the product
`1`. -/
theorem drawRaysCast_example : drawRaysCast exampleCastOps 1 (.fin 100) = 1 := by
  have h : (1 : ℚ) * (100 / 100) = ((1 : Int) : ℚ) := by norm_num
  show Int.tdiv (((1 : Nat) : ℚ) * (100 / 100)).num (((1 : Nat) : ℚ) * (100 / 100)).den = 1
  rw [Nat.cast_one, h, Rat.intCast_num, Rat.intCast_den]
  decide

/-- C11, counterexample. For 3 rays and the fraction `-100` the specification's count is
`N = max(1, trunc(3 * -100 / 100)) = 1`, and the example map holds one chain; but the cast of
line 267 is `-3`, which is not 0, so `drawRays` stays `-3` and the code evaluates
`new int[drawRays]` with a negative length: it does not emit one polyline. -/
theorem DrawPhotonMapRays_negative_fraction :
    claimedN 3 (-100) = 1 ∧
    1 ≤ (chainHeads exampleMap).length ∧
    drawRaysCast exampleCastOps 3 (.fin (-100)) = -3 ∧
    DrawPhotonMapRays exampleMap exampleGetPhoton 5 (drawRaysCast exampleCastOps 3 (.fin (-100)))
      = .negativeArrayLength := by
  refine ⟨?_, by decide, drawRaysCast_negative_example, ?_⟩
  · have h : ((3 : Nat) : ℚ) * (-100) / 100 = ((-3 : Int) : ℚ) := by norm_num
    show max 1 (Int.tdiv (((3 : Nat) : ℚ) * (-100) / 100).num
      (((3 : Nat) : ℚ) * (-100) / 100).den) = 1
    rw [h, Rat.intCast_num, Rat.intCast_den]
    decide
  · rw [drawRaysCast_negative_example]
    decide

/-- C11, as amended. Let `n` be the value of the cast `(int) (numberOfRays * ( fraction / 100 ) )`
as the code computes it in double arithmetic, suppose `n ≥ 0`, and let `N` be 1 when `n` is 0
and `n` otherwise. For every photon map with at least `N` chain heads whose first `N` chains
are finite and whose lookup by identifier returns the successor it is asked for,
`DrawPhotonMapRays` emits exactly `N` polylines: the `k`-th one is the chain of the `k`-th head
of `GetAllPhotons()`, its vertex count is the length of that chain, its positions are the
vertices of the chain from head to tail, and the vertex counts add up to the number of
positions emitted. -/
theorem DrawPhotonMapRays_polylines_of_inputs {F N : Type} [Scalar F] (map : TPhotonMap F N)
    (GetPhoton : F → Option Nat) (fuel : Nat) (ops : CastOps F) (numberOfRays : Nat)
    (fraction : F) (chains : List (List Nat))
    (hcast : 0 ≤ drawRaysCast ops numberOfRays fraction)
    (hheads : max 1 (drawRaysCast ops numberOfRays fraction).toNat ≤ (chainHeads map).length)
    (hchains : List.Forall₂ (fun h c => followNext map fuel (some h) = some c)
      ((chainHeads map).take (max 1 (drawRaysCast ops numberOfRays fraction).toNat)) chains)
    (hlookup : ∀ c ∈ chains, ∀ v ∈ c, ∀ n, (map.deref v).next = some n →
      GetPhoton (map.deref n).id = some n) :
    DrawPhotonMapRays map GetPhoton fuel (drawRaysCast ops numberOfRays fraction) =
      .drawn (chains.flatMap (fun c => c.map (fun v => (map.deref v).pos)))
        (chains.map (fun c => some c.length)) ∧
    (chains.length : Int) =
      (if drawRaysCast ops numberOfRays fraction = 0 then 1
       else drawRaysCast ops numberOfRays fraction) ∧
    List.Forall₂ (fun h c => c.head? = some h)
      ((chainHeads map).take chains.length) chains ∧
    (chains.map (fun c => c.length)).sum =
      (chains.flatMap (fun c => c.map (fun v => (map.deref v).pos))).length := by
  obtain ⟨hdrawn, hlen, hsum⟩ := DrawPhotonMapRays_polylines map GetPhoton fuel
    (drawRaysCast ops numberOfRays fraction) chains hcast hheads hchains hlookup
  refine ⟨hdrawn, ?_, ?_, hsum⟩
  · rw [hlen]
    split <;> omega
  · rw [hlen]
    refine hchains.imp ?_
    intro h c hc
    cases fuel with
    | zero => simp [followNext] at hc
    | succ fuel =>
      simp only [followNext, Option.map_eq_some'] at hc
      obtain ⟨rest, -, rfl⟩ := hc
      rfl

/-- C11, an instance of the amended statement: the example map holds one chain of two
vertices; 1 ray and the fraction `100` ask for one polyline. -/
theorem DrawPhotonMapRays_polylines_of_inputs_witness :
    DrawPhotonMapRays exampleMap exampleGetPhoton 5 (drawRaysCast exampleCastOps 1 (.fin 100)) =
      .drawn ([[0, 1]].flatMap (fun c => c.map (fun v => (exampleMap.deref v).pos)))
        ([[0, 1]].map (fun c => some c.length)) :=
  (DrawPhotonMapRays_polylines_of_inputs exampleMap exampleGetPhoton 5 exampleCastOps 1
    (.fin 100) [[0, 1]]
    (by rw [drawRaysCast_example]; decide)
    (by rw [drawRaysCast_example]; decide)
    (by rw [drawRaysCast_example]; exact List.Forall₂.cons (by decide) List.Forall₂.nil)
    (by
      intro c hc v hv n hn
      simp only [List.mem_singleton] at hc
      subst hc
      simp only [List.mem_cons, List.mem_singleton, List.not_mem_nil, or_false] at hv
      rcases hv with rfl | rfl
      · have : n = 1 := by simpa [exampleMap] using hn.symm
        subst this
        decide
      · simp [exampleMap] at hn)).1

/-- C13. In this revision of `trf.cpp` the call of the intersection routine (line 199) is
commented out, so `reflectedRay` stays null: the loop of `TraceRay` ends in its first
iteration whatever the ray, the scene and the random source, and `TraceRay` returns on every
input. The loop has no bound of its own: with an intersection step in place, `TraceRay`
returns exactly when that step at some point returns no ray, and it never returns for a step
that always returns one. -/
theorem TraceRay_terminates {F N R : Type} [Scalar F] [DecidableEq F] (blank : Photon F N)
    (heap : List (Photon F N)) (ray : Ray F) (lightNode : Option N) (photonMap : List Nat)
    (rand : R) :
    (∀ fuel, (TraceRay (Intersect_disabled : Intersector F N R) blank (fuel + 1) heap ray
      lightNode photonMap rand).isSome = true) ∧
    (∀ s : TraceVars F N R, traceLoop (Intersect_disabled : Intersector F N R) blank 1 s =
      some { s with intersectedSurface := none, isFront := false }) ∧
    (∀ Intersect : Intersector F N R,
      (∃ fuel, (TraceRay Intersect blank fuel heap ray lightNode photonMap rand).isSome = true) ↔
        ∃ k, stopsAfter Intersect k ray rand = true) ∧
    (∀ fuel, TraceRay (Intersect_always : Intersector F N R) blank fuel heap ray lightNode
      photonMap rand = none) := by
  refine ⟨?_, ?_, ?_, ?_⟩
  · intro fuel
    obtain ⟨res, hres, -⟩ :=
      TraceRay_cells (Intersect_disabled : Intersector F N R) blank 0 (fuel + 1) heap ray
        lightNode photonMap rand rfl (by omega)
    simp [hres]
  · intro s
    rfl
  · intro Intersect
    constructor
    · rintro ⟨fuel, hsome⟩
      obtain ⟨res, hres⟩ := Option.isSome_iff_exists.mp hsome
      obtain ⟨k, -, hstop⟩ :=
        TraceRay_some_stops Intersect blank fuel heap ray lightNode photonMap rand res hres
      exact ⟨k, hstop⟩
    · rintro ⟨k, hstop⟩
      obtain ⟨res, hres, -⟩ :=
        TraceRay_cells Intersect blank k (k + 1) heap ray lightNode photonMap rand hstop
          (by omega)
      exact ⟨k + 1, by simp [hres]⟩
  · intro fuel
    simp [TraceRay, traceLoop_always_none]

/-- C14, the failing inputs evaluated. With the empty photon map `DrawPhotonMapRays` evaluates
`photonsList[0]` on an empty list; with the example map, which holds one chain, and two rays
asked for, it draws the chain and then evaluates `photonsList[2]` on a list of two: the test
after the skipping loop is made without the bound check of the loop. -/
theorem DrawPhotonMapRays_reads_past_the_list :
    DrawPhotonMapRays emptyMap exampleGetPhoton 5 10 = .indexOutOfRange 0 ∧
    DrawPhotonMapRays exampleMap exampleGetPhoton 5 2 = .indexOutOfRange 2 := by
  decide

end trf

namespace PluginManager

/-! ## The list of plugin files -/

theorem AddFilesToList_eq (directory : QDir) (filesList : List String) :
    AddFilesToList directory filesList =
      filesList ++ directory.entryListFiles.map (fun name => directory.absolutePath ++ "/" ++ name)
    := by
  unfold AddFilesToList
  generalize directory.entryListFiles = names
  induction names generalizing filesList with
  | nil => simp
  | cons name names ih => simp [ih]

theorem ValidDirectoryName_eq_false (directoryName : String) :
    ValidDirectoryName directoryName = false ↔ directoryName = "." ∨ directoryName = ".." := by
  unfold ValidDirectoryName
  by_cases h1 : directoryName = "." <;> by_cases h2 : directoryName = ".." <;> simp [h1, h2]

mutual
theorem BuildFileList_eq : ∀ (directory : QDir) (filesList : List String),
    BuildFileList directory filesList = filesList ++ filesBelow directory
  | .mk absolutePath files dirs, filesList => by
    rw [BuildFileList, BuildFileList_loop_eq dirs, AddFilesToList_eq, filesBelow]
    simp [QDir.entryListFiles, QDir.absolutePath]
theorem BuildFileList_loop_eq : ∀ (dirs : List (String × QDir)) (filesList : List String),
    BuildFileList.loop dirs filesList = filesList ++ filesBelow.dirs dirs
  | [], filesList => by simp [BuildFileList.loop, filesBelow.dirs]
  | (name, subdirectory) :: rest, filesList => by
    rw [BuildFileList.loop, filesBelow.dirs]
    by_cases h : name = "." ∨ name = ".."
    · simp only [(ValidDirectoryName_eq_false name).mpr h, h, if_true, Bool.false_eq_true,
        if_false, List.nil_append]
      exact BuildFileList_loop_eq rest filesList
    · have hv : ValidDirectoryName name = true := by
        cases hb : ValidDirectoryName name with
        | true => rfl
        | false => exact absurd ((ValidDirectoryName_eq_false name).mp hb) h
      simp only [hv, h, if_true, if_false]
      rw [BuildFileList_loop_eq rest, BuildFileList_eq subdirectory, List.append_assoc]
end

/-- C12. For every finite directory tree `BuildFileList` returns, and the list it leaves is the
list it was given followed by the path (absolute path of the directory, a slash, the file
name) of every file of the directory and of all its subdirectories, each file once: the
directory's own files first, then those below each subdirectory in turn, without descending
into the entries `.` and `..`. `ValidDirectoryName` is false for exactly these two names. -/
theorem BuildFileList_lists_all_files (directory : QDir) (filesList : List String) :
    BuildFileList directory filesList = filesList ++ filesBelow directory ∧
    (BuildFileList directory filesList).take filesList.length = filesList ∧
    (∀ directoryName : String,
      ValidDirectoryName directoryName = false ↔ directoryName = "." ∨ directoryName = "..") := by
  refine ⟨BuildFileList_eq directory filesList, ?_, ValidDirectoryName_eq_false⟩
  rw [BuildFileList_eq]
  simp

/-- C12, the example tree evaluated: the two plugins of the directory, then the one of
`shapes`; nothing from `.` and `..`. -/
theorem BuildFileList_example :
    BuildFileList examplePlugins ["/usr/lib/x.so"] =
      ["/usr/lib/x.so", "/opt/plugins/a.so", "/opt/plugins/b.so",
        "/opt/plugins/shapes/sphere.so"] := by
  decide

end PluginManager
